import Mathlib

/-
Verification of the versioned metadata document store of the mmapi repository
(src/mmm/metadata_collector.py and src/mmm/common.py).

The Python code is shallowly embedded: JSON-like documents become the mutual
inductive `Value` / `VList` / `Fields` (a Python dict is an insertion-ordered
association list with unique keys), the MongoDB current and history databases
become per-collection lists of documents in natural (insertion) order, the
in-memory cache becomes a per-collection association list from document id to
(insertion time, document), and Python exceptions become the `Err` type tagged
with the Python exception class.  Every stateful operation returns its result
together with the updated state, because side effects performed before a raise
persist in Python.
-/

set_option autoImplicit false
set_option maxRecDepth 4096

namespace MMapi

mutual

/-- A JSON-like Python value: string, int, bool, None, list or dict. -/
inductive Value where
  | vstr (s : String)
  | vint (n : Int)
  | vbool (b : Bool)
  | vnull
  | varr (xs : VList)
  | vobj (fs : Fields)

/-- A Python list of values. -/
inductive VList where
  | nil
  | cons (head : Value) (tail : VList)

/-- A Python dict with string keys, kept in insertion order. -/
inductive Fields where
  | nil
  | cons (key : String) (val : Value) (tail : Fields)

end

/-- A document, as stored in a MongoDB collection: a Python dict. -/
abbrev Doc := Fields

/-- Python `key.startswith("#")` for the one-character sigils the code uses:
the first character of the key is `c`. -/
def startsWithCh (c : Char) (s : String) : Bool :=
  match s.data with
  | [] => false
  | c2 :: _ => c2 = c

/-- Python `key[1:]`: the key with its first character removed. -/
def dropFirst (s : String) : String :=
  ⟨s.data.drop 1⟩

namespace Fields

/-- Python `doc[key]` as an option: the value stored under `key`. -/
def get? : Fields → String → Option Value
  | .nil, _ => none
  | .cons k v rest, key => if k = key then some v else get? rest key

/-- Python `key in doc.keys()`. -/
def hasKey : Fields → String → Bool
  | .nil, _ => false
  | .cons k _ rest, key => k = key || hasKey rest key

/-- Python `doc[key] = v`: replace in place if the key exists, else append. -/
def set : Fields → String → Value → Fields
  | .nil, key, v => .cons key v .nil
  | .cons k w rest, key, v =>
      if k = key then .cons k v rest else .cons k w (set rest key v)

/-- The dict comprehension keeping only keys that start with the sigil "#"
(the metadata fields). -/
def keepMeta : Fields → Fields
  | .nil => .nil
  | .cons k v rest =>
      if startsWithCh (Char.ofNat 35) k then .cons k v (keepMeta rest) else keepMeta rest

/-- The dict comprehension dropping keys that start with the sigil "#"
(`strip_metadata_fields`: the non-metadata content of a document). -/
def dropMeta : Fields → Fields
  | .nil => .nil
  | .cons k v rest =>
      if startsWithCh (Char.ofNat 35) k then dropMeta rest else .cons k v (dropMeta rest)

/-- Python `a.update(b)` when the key sets of `a` and `b` are disjoint (the
only way the code uses it: metadata keys start with "#", content keys do not):
the entries of `b` are appended after the entries of `a`. -/
def append : Fields → Fields → Fields
  | .nil, b => b
  | .cons k v rest, b => .cons k v (append rest b)

/-- Python `not doc` truthiness test for a dict. -/
def isEmpty : Fields → Bool
  | .nil => true
  | .cons _ _ _ => false

end Fields

mutual

/-- Structural equality of values.  MongoDB equality filters compare values
structurally; for the identifier strings and integer versions the code filters
on, this coincides with Python `==`. -/
def Value.beq : Value → Value → Bool
  | .vstr a, .vstr b => a == b
  | .vint a, .vint b => a == b
  | .vbool a, .vbool b => a == b
  | .vnull, .vnull => true
  | .varr a, .varr b => VList.beq a b
  | .vobj a, .vobj b => Fields.beq a b
  | _, _ => false

/-- Structural equality of value lists. -/
def VList.beq : VList → VList → Bool
  | .nil, .nil => true
  | .cons a as1, .cons b bs1 => Value.beq a b && VList.beq as1 bs1
  | _, _ => false

/-- Structural equality of dicts (same keys, same values, same order). -/
def Fields.beq : Fields → Fields → Bool
  | .nil, .nil => true
  | .cons k1 v1 t1, .cons k2 v2 t2 => k1 == k2 && Value.beq v1 v2 && Fields.beq t1 t2
  | _, _ => false

end

/-- Number of entries of a dict. -/
def Fields.length : Fields → Nat
  | .nil => 0
  | .cons _ _ rest => 1 + Fields.length rest

mutual

/-- Python `==` on values: dicts compare as finite maps (same length and every
key of the left dict maps to an equal value in the right dict, which for dicts
with unique keys is Python dict equality), lists compare pointwise. -/
def Value.pyEq : Value → Value → Bool
  | .vstr a, .vstr b => a == b
  | .vint a, .vint b => a == b
  | .vbool a, .vbool b => a == b
  | .vnull, .vnull => true
  | .varr a, .varr b => VList.pyEq a b
  | .vobj a, .vobj b => Fields.length a == Fields.length b && Fields.pySub a b
  | _, _ => false

/-- Python `==` on lists: pointwise. -/
def VList.pyEq : VList → VList → Bool
  | .nil, .nil => true
  | .cons a as1, .cons b bs1 => Value.pyEq a b && VList.pyEq as1 bs1
  | _, _ => false

/-- Every entry of the first dict has a Python-equal value under the same key
in the second dict. -/
def Fields.pySub : Fields → Fields → Bool
  | .nil, _ => true
  | .cons k v t, b =>
      (match Fields.get? b k with
       | some v2 => Value.pyEq v v2
       | none => false) && Fields.pySub t b

end

/-- Python dict equality: length check plus per-key comparison, as in CPython. -/
def Fields.pyEq (a b : Fields) : Bool :=
  Fields.length a == Fields.length b && Fields.pySub a b

/-- A Python exception, tagged with the exception class raised by the code. -/
inductive Err where
  | lookupError (msg : String)
  | valueError (msg : String)
  | nameError (msg : String)
  | assertionError (msg : String)
  | keyError (msg : String)
  | typeError (msg : String)
  deriving DecidableEq

/-- The textual form Python f-strings give to the values the code interpolates
into messages (only strings and ints flow into the messages the code builds;
the remaining cases are not exercised and are rendered as a stub). -/
def vShow : Value → String
  | .vstr s => s
  | .vint n => toString n
  | .vbool b => if b then "True" else "False"
  | .vnull => "None"
  | .varr _ => "<list>"
  | .vobj _ => "<dict>"

/-- A single quote character (Python messages quote interpolated ids). -/
def sq : String := "\x27"

/-- The external jsonschema check of one schema: `none` when the document
validates, or `some msg` where `msg` is the diagnostic text appended for the
first violation found (jsonschema.validate raises on the first error). -/
abbrev SchemaCheck := Doc → Option String

/-- The configuration the MetadataCollector is constructed with: the default
author, the owning organization, the generic metadata (envelope) schema
`mmm_metadata`, and the per-collection schema registry `mmm_schemas`.  The
schema dicts themselves live in `mmm.schemas`, outside the embedded sources,
so each schema is abstracted to its jsonschema outcome (`SchemaCheck`). -/
structure Cfg where
  defaultAuthor : String
  organization : String
  metaSchema : SchemaCheck
  collSchemas : String → Option SchemaCheck

/-- The fixed collection names of `MetadataCollector.__init__`. -/
def collectionNames : List String :=
  ["sensors", "stations", "variables", "qualityControl", "people", "units",
   "processes", "organizations", "datasets", "operations", "activities",
   "projects", "resources", "programmes"]

/-- The cache TTL in seconds (`self.__cache_timeout_s = 300`). -/
def cacheTimeoutS : Nat := 300

/-- One per-collection cache dict: document id to (insertion time, document). -/
abbrev CacheCol := List (Value × Nat × Doc)

/-- The mutable state of a MetadataCollector: the current database `db`, the
archive `db_history`, the in-memory cache, and the current wall-clock time in
seconds (time only moves forward via `tick`; `time.time()` and
`get_timestamp_string` both read it). -/
structure DB where
  current : String → List Doc
  history : String → List Doc
  cache : String → CacheCol
  now : Nat

/-- Point update of a per-collection map. -/
def updCol {α : Type} (f : String → α) (c : String) (v : α) : String → α :=
  fun x => if x = c then v else f x

/-- Wall-clock time advancing by `dt` seconds between operations. -/
def tick (st : DB) (dt : Nat) : DB :=
  { st with now := st.now + dt }

/-- Model of `get_timestamp_string` (the UTC instant at second precision,
rendered injectively from the clock). -/
def tsString (n : Nat) : String := toString n

/-- Python dict lookup in a cache collection (keys are the `#id` values,
compared with `==`, which on the id strings is structural equality). -/
def cacheLookup : CacheCol → Value → Option (Nat × Doc)
  | [], _ => none
  | (k, td) :: rest, key => if Value.beq k key then some td else cacheLookup rest key

/-- Python `del cache[collection][doc_id]`: drop the entry. -/
def cacheRemove : CacheCol → Value → CacheCol
  | [], _ => []
  | (k, td) :: rest, key =>
      if Value.beq k key then rest else (k, td) :: cacheRemove rest key

/-- Python `cache[collection][doc_id] = (t, doc)`: overwrite in place if the
key exists, else append. -/
def cacheSet : CacheCol → Value → Nat × Doc → CacheCol
  | [], key, td => [(key, td)]
  | (k, td0) :: rest, key, td =>
      if Value.beq k key then (k, td) :: rest else (k, td0) :: cacheSet rest key td

/-- `MetadataCollector.__add_to_cache`: store `(time.time(), doc)` under
`doc["#id"]`; raises KeyError when the document has no `#id`. -/
def addToCache (st : DB) (collection : String) (doc : Doc) : Except Err Unit × DB :=
  match doc.get? "#id" with
  | none => (.error (.keyError "#id"), st)
  | some did =>
      (.ok (),
       { st with cache := updCol st.cache collection
                   (cacheSet (st.cache collection) did (st.now, doc)) })

/-- `MetadataCollector.__get_from_cache`: `none` when the collection or the
document is absent, or when the entry is older than the TTL (in which case the
stale entry is evicted). -/
def getFromCache (st : DB) (collection : String) (docId : Value) : Option Doc × DB :=
  match cacheLookup (st.cache collection) docId with
  | none => (none, st)
  | some (t, doc) =>
      if st.now - t > cacheTimeoutS then
        (none, { st with cache := updCol st.cache collection
                           (cacheRemove (st.cache collection) docId) })
      else (some doc, st)

/-- The MongoDB equality filter `{"#id": docId}` on one document. -/
def idMatches (docId : Value) (d : Doc) : Bool :=
  match d.get? "#id" with
  | some v => Value.beq v docId
  | none => false

/-- The MongoDB filter of `get_document`: `{"#id": docId}` plus, when
`version` is truthy (non-zero), `{"#version": int(version)}`. -/
def matchesIdVer (docId : Value) (version : Int) (d : Doc) : Bool :=
  idMatches docId d &&
  (version == 0 ||
    (match d.get? "#version" with
     | some v => Value.beq v (.vint version)
     | none => false))

/-- `validate_schema` of src/mmm/common.py: appends the diagnostic of the
schema violation (if any) to the accumulated error list and returns it.  The
external jsonschema evaluation is abstracted by `check`; the `$id` presence
check concerns only the schema dicts of the unembedded `mmm.schemas` module. -/
def validate_schema (check : SchemaCheck) (doc : Doc) (errors : List String) :
    List String :=
  match check doc with
  | some msg => errors ++ [msg]
  | none => errors

/-- Outcome of `MetadataCollector.validate_document`: the accumulated error
list, the warning lines printed to the console (the missing-schema warning is
printed, not returned), and the Python result — `ok true` for a valid
document, `ok false` for an invalid one with `exception=False`, or the raised
ValueError with `exception=True`. -/
structure VDocResult where
  errors : List String
  printedWarnings : List String
  outcome : Except Err Bool

/-- `MetadataCollector.validate_document`: validate against the metadata
(envelope) schema, then against the collection schema when one is registered
(a missing collection schema only prints a warning); all failures accumulate
in one error list. -/
def validate_document (cfg : Cfg) (doc : Doc) (collection : String)
    (exception : Bool) : VDocResult :=
  let errors := validate_schema cfg.metaSchema doc []
  let step :=
    match cfg.collSchemas collection with
    | none => (errors, ["WARNING: no schema for " ++ sq ++ collection ++ sq])
    | some check => (validate_schema check doc errors, [])
  let errors := step.1
  if errors.isEmpty then ⟨errors, step.2, .ok true⟩
  else if exception then
    ⟨errors, step.2,
     .error (.valueError ("Document not valid: " ++ String.intercalate ", " errors))⟩
  else ⟨errors, step.2, .ok false⟩

/-- `MetadataCollector.get_documents`: all documents of a collection (current
or history store) matching a filter, in natural (insertion) order; raises
LookupError for an unknown collection name.  Pure: no state is modified. -/
def get_documents (st : DB) (collection : String) (filt : Doc → Bool)
    (history : Bool) : Except Err (List Doc) :=
  if collection ∈ collectionNames then
    .ok ((if history then st.history collection else st.current collection).filter filt)
  else .error (.lookupError ("Collection " ++ collection ++ " not found!"))

/-- The list comprehension of `get_identifiers`: `d["#id"]` for every
document, raising KeyError when a document lacks `#id`. -/
def idsOf : List Doc → Except Err (List Value)
  | [] => .ok []
  | d :: rest =>
      match d.get? "#id" with
      | none => .error (.keyError "#id")
      | some i =>
          match idsOf rest with
          | .error e => .error e
          | .ok is1 => .ok (i :: is1)

/-- `MetadataCollector.get_identifiers`: the ids of all documents in the
current store of a collection. -/
def get_identifiers (st : DB) (collection : String) : Except Err (List Value) :=
  match get_documents st collection (fun _ => true) false with
  | .error e => .error e
  | .ok docs => idsOf docs

/-- The LookupError message of `get_document` (spacing as in the source). -/
def docNotFoundMsg (collection : String) (docId : Value) : String :=
  "Element " ++ collection ++ " with   with #id = " ++ sq ++ vShow docId ++ sq
    ++ " not found"

/-- The AssertionError message of `get_document` for multiple matches. -/
def multiDocMsg (n : Nat) (collection : String) (docId : Value) : String :=
  "Got " ++ toString n ++ " multiple documents in collection " ++ collection
    ++ " with #id = " ++ sq ++ vShow docId ++ sq

/-- The database part of `get_document`, run on a cache miss: pick the history
store when `version` is truthy, else the current store, check the collection
name, filter by id (and version), and demand exactly one match; the single
match is added to the cache before being returned. -/
def getDocFetch (st : DB) (collection : String) (docId : Value) (version : Int) :
    Except Err Doc × DB :=
  if collection ∈ collectionNames then
    match (if version == 0 then st.current collection else st.history collection).filter
        (matchesIdVer docId version) with
    | [] => (.error (.lookupError (docNotFoundMsg collection docId)), st)
    | [d] =>
        (match addToCache st collection d with
         | (.ok _, st2) => (.ok d, st2)
         | (.error e, st2) => (.error e, st2))
    | l => (.error (.assertionError (multiDocMsg l.length collection docId)), st)
  else (.error (.lookupError ("Collection " ++ collection ++ " not found!")), st)

/-- `MetadataCollector.get_document`: the cache is consulted first — before
the `version` argument is looked at; a truthy cached document is returned
as-is.  Only on a miss (or a falsy `{}` hit) does the database fetch run. -/
def get_document (st : DB) (collection : String) (docId : Value) (version : Int) :
    Except Err Doc × DB :=
  match getFromCache st collection docId with
  | (some doc, st1) =>
      if doc.isEmpty then getDocFetch st1 collection docId version
      else (.ok doc, st1)
  | (none, st1) => getDocFetch st1 collection docId version

/-- The LookupError message of `get_document_history` (the source formats the
Mongo filter with json.dumps; rendered here from its one field). -/
def historyNotFoundMsg (collection : String) (docId : Value) : String :=
  "Element " ++ collection ++ " with  filter #id = " ++ vShow docId
    ++ " not found"

/-- `MetadataCollector.get_document_history`: every history entry whose `#id`
matches, in natural (insertion) order — no sort is applied and the collection
name is not checked; LookupError when there is no match.  Pure. -/
def get_document_history (st : DB) (collection : String) (docId : Value) :
    Except Err (List Doc) :=
  match (st.history collection).filter (idMatches docId) with
  | [] => .error (.lookupError (historyNotFoundMsg collection docId))
  | docs => .ok docs

/-- Mongo `replace_one({"#id": id}, newDoc)`: replace the first matching
document in place; a no-op when nothing matches. -/
def replaceOne : List Doc → Value → Doc → List Doc
  | [], _, _ => []
  | d :: rest, docId, newDoc =>
      if idMatches docId d then newDoc :: rest else d :: replaceOne rest docId newDoc

/-- Mongo `delete_one({"#id": id})`: remove the first matching document; a
no-op when nothing matches. -/
def deleteOne : List Doc → Value → List Doc
  | [], _ => []
  | d :: rest, docId => if idMatches docId d then rest else d :: deleteOne rest docId

/-- `MetadataCollector.replace_document`: check the payload id against the
parameter, default the author, fetch the prior document through the
cache-aware `get_document`, copy its metadata forward with the version
incremented by one, a fresh modification timestamp and the new author, reject
(AssertionError) a candidate whose non-metadata content is Python-equal to the
prior content unless `force` is set, validate, then overwrite the current
store entry and append a history entry.  The cache is not updated. -/
def replace_document (cfg : Cfg) (st : DB) (collection : String)
    (documentId : Value) (document : Doc) (author : String) (force : Bool) :
    Except Err Doc × DB :=
  match document.get? "#id" with
  | none => (.error (.keyError "#id"), st)
  | some did =>
      if Value.beq did documentId then
        let author := if author = "" then cfg.defaultAuthor else author
        match get_document st collection documentId 0 with
        | (.error e, st1) => (.error e, st1)
        | (.ok oldDoc, st1) =>
            let metadata := oldDoc.keepMeta
            let oldContents := oldDoc.dropMeta
            match metadata.get? "#version" with
            | some (.vint n) =>
                let metadata := metadata.set "#version" (.vint (n + 1))
                let metadata := metadata.set "#modificationDate"
                  (.vstr (tsString st1.now))
                let metadata := metadata.set "#author" (.vstr author)
                let contents := document.dropMeta
                if Fields.pyEq contents oldContents && !force then
                  (.error (.assertionError "old and new document are equal, aborting"),
                   st1)
                else
                  let newDoc := Fields.append metadata contents
                  match (validate_document cfg newDoc collection (!force)).outcome with
                  | .error e => (.error e, st1)
                  | .ok _ =>
                      (.ok newDoc,
                       { st1 with
                         current := updCol st1.current collection
                           (replaceOne (st1.current collection) documentId newDoc),
                         history := updCol st1.history collection
                           (st1.history collection ++ [newDoc]) })
            | some _ => (.error (.typeError "#version"), st1)
            | none => (.error (.keyError "#version"), st1)
      else (.error (.valueError "Document #id does not match with parameter id"), st)

/-- The fresh document `insert_document` builds when `force_meta` is not set:
generated metadata (version 1, creation and modification timestamps both at
the current instant, the already-defaulted author) followed by the caller's
non-metadata content. -/
def freshDoc (now : Nat) (did : Value) (author : String) (document : Doc) : Doc :=
  .cons "#id" did (.cons "#version" (.vint 1)
    (.cons "#creationDate" (.vstr (tsString now))
      (.cons "#modificationDate" (.vstr (tsString now))
        (.cons "#author" (.vstr author) document.dropMeta))))

/-- `MetadataCollector.insert_document`: default the author, check the
collection name (ValueError), and test the payload id against the current
identifiers.  A duplicate id raises NameError unless `update` is set, in which
case the call delegates to `replace_document` — passing only collection, id,
document and force (the author argument is not forwarded).  Otherwise, unless
`force_meta` is set, fresh metadata (version 1, both timestamps at the current
instant, the author) is generated and the caller's non-metadata content is
merged after it; the result is validated and appended to both stores. -/
def insert_document (cfg : Cfg) (st : DB) (collection : String) (document : Doc)
    (author : String) (force force_meta update : Bool) : Except Err Doc × DB :=
  let author := if author = "" then cfg.defaultAuthor else author
  if collection ∈ collectionNames then
    match document.get? "#id" with
    | none => (.error (.keyError "#id"), st)
    | some did =>
        match get_identifiers st collection with
        | .error e => (.error e, st)
        | .ok ids =>
            if ids.any (fun i => Value.beq i did) then
              if update then replace_document cfg st collection did document "" force
              else
                (.error (.nameError (collection ++ " document with id "
                   ++ vShow did ++ " already exists!")), st)
            else
              let newDoc : Doc :=
                if force_meta then document
                else freshDoc st.now did author document
              match (validate_document cfg newDoc collection (!force)).outcome with
              | .error e => (.error e, st)
              | .ok _ =>
                  (.ok newDoc,
                   { st with
                     current := updCol st.current collection
                       (st.current collection ++ [newDoc]),
                     history := updCol st.history collection
                       (st.history collection ++ [newDoc]) })
  else (.error (.valueError ("Collection " ++ collection ++ " not valid!")), st)

/-- `MetadataCollector.delete_document`: remove the (first) matching entry
from the current store only; history and cache are untouched and no error is
raised when nothing matches. -/
def delete_document (st : DB) (collection : String) (docId : Value) : DB :=
  { st with current := updCol st.current collection
              (deleteOne (st.current collection) docId) }

/-- The broken-link diagnostic of `MetadataCollector.__check_link`, exactly as
the f-string builds it (the interpolated ids are single-quoted). -/
def brokenLink (parentCollection : String) (parentDocId : Value)
    (targetCollection : String) (targetDoc : Value) : String :=
  parentCollection ++ ":" ++ sq ++ vShow parentDocId ++ sq ++ " broken link "
    ++ targetCollection ++ ":" ++ sq ++ vShow targetDoc ++ sq

/-- `MetadataCollector.__check_link`: resolve the link target through the
cache-aware `get_document`; a LookupError (target or collection not found) is
caught and turned into one appended broken-link diagnostic, after which the
scan continues; any other exception (AssertionError for duplicate ids, the
defensive ValueError for a falsy document) propagates. -/
def check_link (st : DB) (parentCollection : String) (parentDocId : Value)
    (targetCollection : String) (targetDoc : Value) (errors : List String) :
    Except Err (List String) × DB :=
  match get_document st targetCollection targetDoc 0 with
  | (.ok d, st1) =>
      if d.isEmpty then (.error (.valueError "Never null!"), st1)
      else (.ok errors, st1)
  | (.error (.lookupError _), st1) =>
      (.ok (errors ++ [brokenLink parentCollection parentDocId targetCollection
         targetDoc]), st1)
  | (.error e, st1) => (.error e, st1)

mutual

/-- `MetadataCollector.__check_dict`: walk the fields of a document (or
excerpt) in order.  A key starting with "@" is a link field whose sigil-
stripped key names the target collection: a string value is one link, a list
value is a list of links, anything else raises ValueError.  Other dict values
recurse, other list values recurse into their dict elements.  The error list
is threaded through the whole traversal.  (Keys are strings by construction
here; the source's non-string-key ValueError cannot arise.) -/
def check_dict (st : DB) (collection : String) (docId : Value) (doc : Fields)
    (errors : List String) : Except Err (List String) × DB :=
  match doc with
  | .nil => (.ok errors, st)
  | .cons key value rest =>
      if startsWithCh (Char.ofNat 64) key then
        match value with
        | .vstr s =>
            (match check_link st collection docId (dropFirst key) (.vstr s) errors with
             | (.ok errs1, st1) => check_dict st1 collection docId rest errs1
             | (.error e, st1) => (.error e, st1))
        | .varr xs =>
            (match check_links st collection docId (dropFirst key) xs errors with
             | (.ok errs1, st1) => check_dict st1 collection docId rest errs1
             | (.error e, st1) => (.error e, st1))
        | _ =>
            (.error (.valueError ("Wrong type in " ++ vShow docId ++ " " ++ key)), st)
      else
        match value with
        | .vobj sub =>
            (match check_dict st collection docId sub errors with
             | (.ok errs1, st1) => check_dict st1 collection docId rest errs1
             | (.error e, st1) => (.error e, st1))
        | .varr xs =>
            (match check_list st collection docId xs errors with
             | (.ok errs1, st1) => check_dict st1 collection docId rest errs1
             | (.error e, st1) => (.error e, st1))
        | _ => check_dict st collection docId rest errors

/-- The `for val in value` loop of `__check_dict` over a link list: each
element is checked as a link target, the error list threading through. -/
def check_links (st : DB) (collection : String) (docId : Value)
    (targetCollection : String) (xs : VList) (errors : List String) :
    Except Err (List String) × DB :=
  match xs with
  | .nil => (.ok errors, st)
  | .cons v vs =>
      match check_link st collection docId targetCollection v errors with
      | (.ok errs1, st1) => check_links st1 collection docId targetCollection vs errs1
      | (.error e, st1) => (.error e, st1)

/-- The `for subvalue in value` loop of `__check_dict` over a plain list:
dict elements recurse, everything else is skipped. -/
def check_list (st : DB) (collection : String) (docId : Value) (xs : VList)
    (errors : List String) : Except Err (List String) × DB :=
  match xs with
  | .nil => (.ok errors, st)
  | .cons v vs =>
      match v with
      | .vobj sub =>
          (match check_dict st collection docId sub errors with
           | (.ok errs1, st1) => check_list st1 collection docId vs errs1
           | (.error e, st1) => (.error e, st1))
      | _ => check_list st collection docId vs errors

end

/-- `MetadataCollector.__warning`: the hardcoded deprecation warnings for the
"sensors" collection, appended to the warning list (and printed); reading
`doc["#id"]` would raise KeyError for a document without an id. -/
def warning_check (collection : String) (doc : Doc) (warnings : List String) :
    Except Err (List String) :=
  if collection = "sensors" then
    let step1 :=
      if doc.hasKey "deployment" then
        match doc.get? "#id" with
        | none => Except.error (Err.keyError "#id")
        | some did =>
            Except.ok (warnings ++ [collection ++ ":" ++ vShow did ++ " "
              ++ sq ++ "deployment" ++ sq ++ " in Sensors is deprecated!"])
      else Except.ok warnings
    match step1 with
    | .error e => .error e
    | .ok w1 =>
        if doc.hasKey "dataType" then
          if doc.hasKey "dataSource" then
            match doc.get? "#id" with
            | none => .error (.keyError "#id")
            | some did =>
                .ok (w1 ++ [collection ++ ":" ++ vShow did ++ " "
                  ++ sq ++ "dataSource" ++ sq ++ " in datasets root will be ignored!"])
          else .ok w1
        else .ok w1
  else .ok warnings

/-- The per-document body of the `healthcheck` loop, over the documents of one
collection: validate against the metadata schema and (when present) the
collection schema, check the author link into "people" (KeyError when `#id` or
`#author` is missing), scan the whole document for link fields, and collect
the hardcoded warnings. -/
def healthcheck_docs (cfg : Cfg) (st : DB) (col : String)
    (schema : Option SchemaCheck) (docs : List Doc)
    (errors warnings : List String) :
    Except Err (List String × List String) × DB :=
  match docs with
  | [] => (.ok (errors, warnings), st)
  | doc :: rest =>
      let errors := validate_schema cfg.metaSchema doc errors
      let errors :=
        match schema with
        | some check => validate_schema check doc errors
        | none => errors
      match doc.get? "#id" with
      | none => (.error (.keyError "#id"), st)
      | some did =>
          match doc.get? "#author" with
          | none => (.error (.keyError "#author"), st)
          | some auth =>
              match check_link st col did "people" auth errors with
              | (.error e, st1) => (.error e, st1)
              | (.ok errs1, st1) =>
                  match check_dict st1 col did doc errs1 with
                  | (.error e, st2) => (.error e, st2)
                  | (.ok errs2, st2) =>
                      match warning_check col doc warnings with
                      | .error e => (.error e, st2)
                      | .ok warns1 =>
                          healthcheck_docs cfg st2 col schema rest errs2 warns1

/-- The outer collection loop of `healthcheck`: look up the collection's
schema (a missing one is only printed about), fetch all its current documents
(LookupError for an unknown collection name propagates), and run the
per-document checks. -/
def healthcheck_cols (cfg : Cfg) (st : DB) (cols : List String)
    (errors warnings : List String) :
    Except Err (List String × List String) × DB :=
  match cols with
  | [] => (.ok (errors, warnings), st)
  | col :: rest =>
      match get_documents st col (fun _ => true) false with
      | .error e => (.error e, st)
      | .ok docs =>
          match healthcheck_docs cfg st col (cfg.collSchemas col) docs errors warnings with
          | (.error e, st1) => (.error e, st1)
          | (.ok (errs1, warns1), st1) => healthcheck_cols cfg st1 rest errs1 warns1

/-- What a completed `healthcheck` leaves behind: `retval` is the value the
Python function returns — its body has no return statement, so it is always
`none` (the type records what an `(errors, warnings)` return would be);
`errors` and `warnings` are the local lists the function accumulated and
printed in its bulk report. -/
structure HealthReport where
  retval : Option (List String × List String)
  errors : List String
  warnings : List String

/-- `MetadataCollector.healthcheck`: default an empty collection list to all
known collections, aggregate validation errors, broken-link diagnostics and
deprecation warnings across every document of every requested collection, and
print the report.  The function returns None. -/
def healthcheck (cfg : Cfg) (st : DB) (collections : List String) :
    Except Err HealthReport × DB :=
  let cols := if collections.isEmpty then collectionNames else collections
  match healthcheck_cols cfg st cols [] [] with
  | (.ok (errors, warnings), st1) => (.ok ⟨none, errors, warnings⟩, st1)
  | (.error e, st1) => (.error e, st1)

/-- Build a dict from a list of key-value pairs. -/
def fieldsOf : List (String × Value) → Fields
  | [] => .nil
  | (k, v) :: rest => .cons k v (fieldsOf rest)

/-- The error list contributed by one abstract schema outcome. -/
def optList : Option String → List String
  | some m => [m]
  | none => []

/-- Two states that agree on everything except the cache: the current store,
the history store and the clock coincide. -/
def SameStores (a b : DB) : Prop :=
  a.current = b.current ∧ a.history = b.history ∧ a.now = b.now

/-- The `#version` values of a document list, in order. -/
def versionsOf (l : List Doc) : List (Option Value) :=
  l.map (fun d => d.get? "#version")

/-- A configuration whose abstract schema checks always pass and whose
collection-schema registry is empty. -/
def cfg0 : Cfg :=
  ⟨"defaultAuthor", "org", fun _ => none, fun _ => none⟩

/-- A state with empty stores and cache at time 0. -/
def emptyDB : DB :=
  ⟨fun _ => [], fun _ => [], fun _ => [], 0⟩

/-- A stored document: id s1, version 1, content name=A. -/
def dV1A : Doc :=
  fieldsOf [("#id", .vstr "s1"), ("#version", .vint 1),
    ("#creationDate", .vstr "0"), ("#modificationDate", .vstr "0"),
    ("#author", .vstr "defaultAuthor"), ("name", .vstr "A")]

/-- The successor snapshot of `dV1A`: version 2, content name=B. -/
def dV2B : Doc :=
  fieldsOf [("#id", .vstr "s1"), ("#version", .vint 2),
    ("#creationDate", .vstr "0"), ("#modificationDate", .vstr "1"),
    ("#author", .vstr "defaultAuthor"), ("name", .vstr "B")]

/-- A caller payload carrying content name=B for s1. -/
def candB : Doc := fieldsOf [("#id", .vstr "s1"), ("name", .vstr "B")]

/-- A state where s1 is at version 2 (content B) and the cache freshly holds
that same current snapshot. -/
def c1DB : DB :=
  ⟨updCol (fun _ => []) "sensors" [dV2B],
   updCol (fun _ => []) "sensors" [dV1A, dV2B],
   updCol (fun _ => []) "sensors" [(Value.vstr "s1", (1, dV2B))], 1⟩

/-- A state where s1 is at version 2 (content B) with an empty cache. -/
def c1W : DB :=
  ⟨updCol (fun _ => []) "sensors" [dV2B],
   updCol (fun _ => []) "sensors" [dV1A, dV2B],
   fun _ => [], 0⟩

/-- A document whose author link does not resolve. -/
def c2Doc : Doc :=
  fieldsOf [("#id", .vstr "s1"), ("#version", .vint 1),
    ("#creationDate", .vstr "0"), ("#modificationDate", .vstr "0"),
    ("#author", .vstr "nobody"), ("name", .vstr "CTD")]

/-- A state whose only document has a broken author link. -/
def c2DB : DB :=
  ⟨updCol (fun _ => []) "sensors" [c2Doc], fun _ => [], fun _ => [], 0⟩

/-- A state where s1 is at version 1 (content A) with an empty cache. -/
def c5DB : DB :=
  ⟨updCol (fun _ => []) "sensors" [dV1A],
   updCol (fun _ => []) "sensors" [dV1A], fun _ => [], 5⟩

/-- A state where the current store has s1 at version 2 (content B) but the
cache still holds the fresh-looking stale version-1 snapshot (content A):
reachable because `replace_document` never updates the cache. -/
def c6DB : DB :=
  ⟨updCol (fun _ => []) "sensors" [dV2B],
   updCol (fun _ => []) "sensors" [dV1A, dV2B],
   updCol (fun _ => []) "sensors" [(Value.vstr "s1", (1, dV1A))], 1⟩

/-- Caller payloads for the insert/replace/delete/insert history scenario. -/
def candA : Doc := fieldsOf [("#id", .vstr "s1"), ("name", .vstr "A")]

/-- The re-insert payload of the history scenario. -/
def candC : Doc := fieldsOf [("#id", .vstr "s1"), ("name", .vstr "C")]

/-- State after inserting s1 (content A) into an empty database. -/
def c8St1 : DB :=
  (insert_document cfg0 emptyDB "sensors" candA "" false false false).2

/-- State after then replacing s1 with content B. -/
def c8St2 : DB :=
  (replace_document cfg0 c8St1 "sensors" (.vstr "s1") candB "" false).2

/-- State after then deleting s1 from the current store. -/
def c8St3 : DB := delete_document c8St2 "sensors" (.vstr "s1")

/-- State after then re-inserting s1 (content C): its history now holds
versions 1, 2, 1 in insertion order. -/
def c8St4 : DB :=
  (insert_document cfg0 c8St3 "sensors" candC "" false false false).2

/-- A configuration both of whose abstract schema checks fail. -/
def cfgBad : Cfg :=
  ⟨"defaultAuthor", "org", fun _ => some "envelope violated",
   fun c => if c = "sensors" then some (fun _ => some "collection schema violated")
     else none⟩

/-- The document `replace_document` produces in the stale-cache scenario of
`c6DB`: version 2 again, content B. -/
def c6NewDoc : Doc :=
  fieldsOf [("#id", .vstr "s1"), ("#version", .vint 2),
    ("#creationDate", .vstr "0"), ("#modificationDate", .vstr (tsString 1)),
    ("#author", .vstr "defaultAuthor"), ("name", .vstr "B")]

/-- The document the delegated replace produces for the `c5DB` scenario when
`insert_document` drops the author argument. -/
def c5InsDoc : Doc :=
  fieldsOf [("#id", .vstr "s1"), ("#version", .vint 2),
    ("#creationDate", .vstr "0"), ("#modificationDate", .vstr (tsString 5)),
    ("#author", .vstr "defaultAuthor"), ("name", .vstr "B")]

/-- The document a direct replace with author "alice" produces on `c5DB`. -/
def c5RepDoc : Doc :=
  fieldsOf [("#id", .vstr "s1"), ("#version", .vint 2),
    ("#creationDate", .vstr "0"), ("#modificationDate", .vstr (tsString 5)),
    ("#author", .vstr "alice"), ("name", .vstr "B")]

/-- The integer `#version` values of a document list, in order. -/
def intVersionsOf (l : List Doc) : List Int :=
  l.filterMap (fun d =>
    match d.get? "#version" with
    | some (.vint n) => some n
    | _ => none)

/-- Well-formedness of one per-collection cache dict as a Python dict: every
key is the string id it was stored under, and keys are distinct. -/
def cacheColWF (l : CacheCol) : Prop :=
  (∀ e ∈ l, ∃ s, e.1 = Value.vstr s) ∧ l.Pairwise (fun a b => a.1 ≠ b.1)

/-- A document with two broken links, one of them nested one level deep. -/
def c3Doc : Doc :=
  fieldsOf [("@people", .vstr "p1"),
    ("nested", .vobj (fieldsOf [("@people", .vstr "p2")]))]

/-- The state `get_document` leaves after fetching s1 from `c5DB` on a cache
miss: the fetched snapshot has been cached. -/
def c6W1 : DB :=
  ⟨updCol (fun _ => []) "sensors" [dV1A],
   updCol (fun _ => []) "sensors" [dV1A],
   updCol (fun _ => []) "sensors" [(Value.vstr "s1", (5, dV1A))], 5⟩

/- ------------------------------------------------------------------ -/
/- Helper lemmas -/
/- ------------------------------------------------------------------ -/

theorem validate_schema_eq (check : SchemaCheck) (doc : Doc) (errors : List String) :
    validate_schema check doc errors = errors ++ optList (check doc) := by
  unfold validate_schema
  cases check doc <;> simp [optList]

theorem updCol_same {α : Type} (f : String → α) (c : String) (v : α) :
    updCol f c v c = v := by
  simp [updCol]

theorem updCol_other {α : Type} (f : String → α) (c : String) (v : α) (x : String)
    (h : x ≠ c) : updCol f c v x = f x := by
  simp [updCol, h]

theorem updCol_self {α : Type} (f : String → α) (c : String) :
    updCol f c (f c) = f := by
  funext x
  by_cases h : x = c <;> simp [updCol, h]

theorem updCol_collapse {α : Type} (f : String → α) (c : String) (a b : α) :
    updCol (updCol f c a) c b = updCol f c b := by
  funext x
  by_cases h : x = c <;> simp [updCol, h]

theorem deleteOne_of_no_match (l : List Doc) (i : Value)
    (h : ∀ d ∈ l, idMatches i d = false) : deleteOne l i = l := by
  induction l with
  | nil => rfl
  | cons d rest ih =>
      simp only [deleteOne, h d (by simp)]
      simp [ih (fun d2 hd2 => h d2 (by simp [hd2]))]

theorem deleteOne_idem (l : List Doc) (i : Value)
    (h : l.countP (idMatches i) ≤ 1) :
    deleteOne (deleteOne l i) i = deleteOne l i := by
  induction l with
  | nil => rfl
  | cons d rest ih =>
      by_cases hd : idMatches i d
      · simp only [deleteOne, hd, if_true]
        apply deleteOne_of_no_match
        intro d2 hd2
        have h1 : rest.countP (idMatches i) + 1 ≤ 1 := by
          rw [List.countP_cons] at h
          simpa [hd] using h
        have h0 : rest.countP (idMatches i) = 0 := by omega
        have := List.countP_eq_zero.mp h0 d2 hd2
        simpa using this
      · have hr : rest.countP (idMatches i) ≤ 1 := by
          simp [List.countP_cons, hd] at h
          omega
        simp [deleteOne, hd, ih hr]

/- ------------------------------------------------------------------ -/
/- Claim theorems -/
/- ------------------------------------------------------------------ -/

/-- Claim C4 (confirmed): a single Validator call appends every schema failure
(envelope-schema and collection-schema) to the diagnostics list, so all
violations are reported at once; with `exception=False` the outcome is
returned as data, and a missing collection-specific schema yields only a
printed warning — no error — with the document still accepted when the
envelope schema passes. -/
theorem claim_C4 (cfg : Cfg) (doc : Doc) (c : String) :
    (∀ exc : Bool, (validate_document cfg doc c exc).errors =
        optList (cfg.metaSchema doc) ++
          (match cfg.collSchemas c with
           | some check => optList (check doc)
           | none => [])) ∧
    ((validate_document cfg doc c false).outcome =
      .ok (validate_document cfg doc c false).errors.isEmpty) ∧
    (cfg.collSchemas c = none →
      (validate_document cfg doc c false).printedWarnings =
          ["WARNING: no schema for " ++ sq ++ c ++ sq] ∧
        (validate_document cfg doc c false).errors = optList (cfg.metaSchema doc) ∧
        (cfg.metaSchema doc = none →
          ∀ exc : Bool, (validate_document cfg doc c exc).outcome = .ok true)) := by
  cases hm : cfg.metaSchema doc <;> cases hs : cfg.collSchemas c
  · simp [validate_document, validate_schema, hm, hs, optList]
  · next check =>
      cases hck : check doc <;>
        simp [validate_document, validate_schema, hm, hs, hck, optList]
  · simp [validate_document, validate_schema, hm, hs, optList]
  · next check =>
      cases hck : check doc <;>
        simp [validate_document, validate_schema, hm, hs, hck, optList]

/-- Witness for C4 at concrete inputs: with both schema checks failing, both
diagnostics are accumulated; with no registered collection schema, only the
printed warning appears and the document is accepted. -/
theorem claim_C4_witness :
    (validate_document cfgBad candA "sensors" false).errors =
        ["envelope violated", "collection schema violated"] ∧
    (validate_document cfg0 candA "stations" false).printedWarnings =
        ["WARNING: no schema for " ++ sq ++ "stations" ++ sq] ∧
    (validate_document cfg0 candA "stations" false).outcome = .ok true := by
  refine ⟨?_, ?_, ?_⟩
  · have h := (claim_C4 cfgBad candA "sensors").1 false
    simpa [cfgBad, optList] using h
  · exact ((claim_C4 cfg0 candA "stations").2.2 rfl).1
  · exact ((claim_C4 cfg0 candA "stations").2.2 rfl).2.2 rfl false

/-- Claim C9 (confirmed): delete removes only the (unique) current-store
entry; history, cache and clock are untouched, other collections are
untouched, a delete of an absent identifier is a no-op that still succeeds,
and — under the per-collection identifier-uniqueness invariant — delete is
idempotent. -/
theorem claim_C9 (st : DB) (c : String) (i : Value) :
    (delete_document st c i).history = st.history ∧
    (delete_document st c i).cache = st.cache ∧
    (delete_document st c i).now = st.now ∧
    (delete_document st c i).current c = deleteOne (st.current c) i ∧
    (∀ c2, c2 ≠ c → (delete_document st c i).current c2 = st.current c2) ∧
    ((∀ d ∈ st.current c, idMatches i d = false) → delete_document st c i = st) ∧
    ((st.current c).countP (idMatches i) ≤ 1 →
      delete_document (delete_document st c i) c i = delete_document st c i) := by
  refine ⟨rfl, rfl, rfl, updCol_same _ _ _, fun c2 h => updCol_other _ _ _ _ h, ?_, ?_⟩
  · intro h
    simp only [delete_document]
    rw [deleteOne_of_no_match _ _ h, updCol_self]
  · intro h
    simp only [delete_document, updCol_same]
    rw [deleteOne_idem _ _ h, updCol_collapse]

/-- Witness for C9 at a concrete state: deleting s1 leaves history untouched
and a second delete changes nothing. -/
theorem claim_C9_witness :
    (delete_document c5DB "sensors" (.vstr "s1")).history = c5DB.history ∧
    delete_document (delete_document c5DB "sensors" (.vstr "s1")) "sensors" (.vstr "s1") =
      delete_document c5DB "sensors" (.vstr "s1") :=
  ⟨(claim_C9 c5DB "sensors" (.vstr "s1")).1,
   (claim_C9 c5DB "sensors" (.vstr "s1")).2.2.2.2.2.2 (by decide)⟩

/-- Counterexample to C8 as stated: starting from an empty database, insert
s1, replace it (version 2), delete it and insert it again.  The history store
then holds versions 1, 2, 1 in the order `get_document_history` returns them —
not ascending (the code applies no sort, and delete plus re-insert restarts
the version numbering). -/
theorem claim_C8_cx :
    (get_document_history c8St4 "sensors" (.vstr "s1")).map intVersionsOf =
      .ok [1, 2, 1] ∧
    ¬ List.Sorted (· ≤ ·) ([1, 2, 1] : List Int) :=
  ⟨rfl, by decide⟩

/-- Claim C8 (corrected): getHistory returns all history entries for the
identifier in the order they were inserted into the history store (no sort is
applied), and fails NotFound (LookupError) when no entry matches. -/
theorem claim_C8_amended (st : DB) (c : String) (i : Value) :
    ((st.history c).filter (idMatches i) = [] →
      get_document_history st c i =
        .error (.lookupError (historyNotFoundMsg c i))) ∧
    (∀ d ds, (st.history c).filter (idMatches i) = d :: ds →
      get_document_history st c i = .ok (d :: ds)) := by
  constructor
  · intro h
    unfold get_document_history
    rw [h]
  · intro d ds h
    unfold get_document_history
    rw [h]

/-- Witness for C8 (amended) at concrete states: the not-found error on an
empty history, and the full in-order history of s1. -/
theorem claim_C8_witness :
    get_document_history emptyDB "sensors" (.vstr "zz") =
      .error (.lookupError (historyNotFoundMsg "sensors" (.vstr "zz"))) ∧
    get_document_history c1W "sensors" (.vstr "s1") = .ok [dV1A, dV2B] :=
  ⟨(claim_C8_amended emptyDB "sensors" (.vstr "zz")).1 rfl,
   (claim_C8_amended c1W "sensors" (.vstr "s1")).2 dV1A [dV2B] rfl⟩

/-- Claim C5 (corrected): an insert whose identifier already exists fails
AlreadyExists (NameError) when `update` is false; when `update` is true it
delegates to replace with the same collection, identifier, document and force
— but with no author argument (the replace then applies the configured
default author). -/
theorem claim_C5_amended (cfg : Cfg) (st : DB) (c : String) (document : Doc)
    (author : String) (force force_meta : Bool) (did : Value) (ids : List Value)
    (hc : c ∈ collectionNames) (hid : document.get? "#id" = some did)
    (hids : get_identifiers st c = .ok ids)
    (hdup : ids.any (fun i => Value.beq i did) = true) :
    insert_document cfg st c document author force force_meta true =
      replace_document cfg st c did document "" force ∧
    insert_document cfg st c document author force force_meta false =
      (.error (.nameError (c ++ " document with id " ++ vShow did
        ++ " already exists!")), st) := by
  constructor
  · simp only [insert_document, if_pos hc, hid, hids, hdup, if_true]
  · simp only [insert_document, if_pos hc, hid, hids, hdup, if_true]
    simp

/-- Counterexample to C5 as stated: on `c5DB` (s1 stored with the default
author), an insert with author "alice" and `update=true` stores the default
author — the direct replace with the same author argument stores "alice", so
the two calls are not identical. -/
theorem claim_C5_cx :
    (insert_document cfg0 c5DB "sensors" candB "alice" false false true).1 =
      .ok c5InsDoc ∧
    (replace_document cfg0 c5DB "sensors" (.vstr "s1") candB "alice" false).1 =
      .ok c5RepDoc ∧
    (insert_document cfg0 c5DB "sensors" candB "alice" false false true).1 ≠
      (replace_document cfg0 c5DB "sensors" (.vstr "s1") candB "alice" false).1 := by
  refine ⟨rfl, rfl, ?_⟩
  intro h
  rw [show (insert_document cfg0 c5DB "sensors" candB "alice" false false true).1 =
        .ok c5InsDoc from rfl,
      show (replace_document cfg0 c5DB "sensors" (.vstr "s1") candB "alice" false).1 =
        .ok c5RepDoc from rfl] at h
  simp [c5InsDoc, c5RepDoc, fieldsOf] at h

/-- Witness for C5 (amended) at a concrete state: the delegation equation and
the AlreadyExists failure, with every hypothesis discharged by computation. -/
theorem claim_C5_witness :
    insert_document cfg0 c5DB "sensors" candB "alice" false false true =
      replace_document cfg0 c5DB "sensors" (.vstr "s1") candB "" false ∧
    insert_document cfg0 c5DB "sensors" candB "alice" false false false =
      (.error (.nameError ("sensors" ++ " document with id " ++ vShow (.vstr "s1")
        ++ " already exists!")), c5DB) :=
  ⟨(claim_C5_amended cfg0 c5DB "sensors" candB "alice" false false (.vstr "s1")
      [.vstr "s1"] (by decide) rfl rfl rfl).1,
   (claim_C5_amended cfg0 c5DB "sensors" candB "alice" false false (.vstr "s1")
      [.vstr "s1"] (by decide) rfl rfl rfl).2⟩

/-- Counterexample to C6 as stated: on `c6DB` the cache holds a fresh-looking
stale version-1 snapshot (content A) while the current store holds version 2
(content B).  A replace whose candidate content equals the stored (current)
content B does not fail NoChange — the code compares against the cached prior
document — and both stores are mutated: a second version-2 history entry is
appended. -/
theorem claim_C6_cx :
    c6DB.current "sensors" = [dV2B] ∧
    Fields.pyEq candB.dropMeta dV2B.dropMeta = true ∧
    (replace_document cfg0 c6DB "sensors" (.vstr "s1") candB "" false).1 =
      .ok c6NewDoc ∧
    (replace_document cfg0 c6DB "sensors" (.vstr "s1") candB "" false).1 ≠
      .error (.assertionError "old and new document are equal, aborting") ∧
    (replace_document cfg0 c6DB "sensors" (.vstr "s1") candB "" false).2.history
        "sensors" = [dV1A, dV2B, c6NewDoc] ∧
    (replace_document cfg0 c6DB "sensors" (.vstr "s1") candB "" false).2.current
        "sensors" = [c6NewDoc] := by
  refine ⟨rfl, rfl, rfl, ?_, rfl, rfl⟩
  intro h
  rw [show (replace_document cfg0 c6DB "sensors" (.vstr "s1") candB "" false).1 =
        .ok c6NewDoc from rfl] at h
  exact absurd h (by simp)

/- ------------------------------------------------------------------ -/
/- Frame lemmas: only the cache is written by reads -/
/- ------------------------------------------------------------------ -/

theorem sameStores_trans {a b c : DB} (h1 : SameStores a b) (h2 : SameStores b c) :
    SameStores a c :=
  ⟨h1.1.trans h2.1, h1.2.1.trans h2.2.1, h1.2.2.trans h2.2.2⟩

theorem stores_getFromCache (st : DB) (c : String) (i : Value) :
    SameStores (getFromCache st c i).2 st := by
  unfold getFromCache
  split
  · exact ⟨rfl, rfl, rfl⟩
  · split
    · exact ⟨rfl, rfl, rfl⟩
    · exact ⟨rfl, rfl, rfl⟩

theorem stores_addToCache (st : DB) (c : String) (d : Doc) :
    SameStores (addToCache st c d).2 st := by
  unfold addToCache
  split
  · exact ⟨rfl, rfl, rfl⟩
  · exact ⟨rfl, rfl, rfl⟩

theorem sameStores_addRet (st : DB) (c : String) (d : Doc) :
    SameStores ((match addToCache st c d with
      | (.ok _, st2) => ((Except.ok d : Except Err Doc), st2)
      | (.error e, st2) => ((Except.error e : Except Err Doc), st2)).2) st := by
  have h := stores_addToCache st c d
  cases ha : addToCache st c d with
  | mk r st2 =>
      rw [ha] at h
      cases r with
      | ok u => exact h
      | error e => exact h

theorem stores_getDocFetch (st : DB) (c : String) (i : Value) (v : Int) :
    SameStores (getDocFetch st c i v).2 st := by
  by_cases hc : c ∈ collectionNames
  · unfold getDocFetch
    rw [if_pos hc]
    cases hfil : (if (v == 0) = true then st.current c else st.history c).filter
        (matchesIdVer i v) with
    | nil => exact ⟨rfl, rfl, rfl⟩
    | cons d rest =>
        cases rest with
        | nil => exact sameStores_addRet st c d
        | cons d2 rest2 => exact ⟨rfl, rfl, rfl⟩
  · unfold getDocFetch
    rw [if_neg hc]
    exact ⟨rfl, rfl, rfl⟩

theorem stores_get_document (st : DB) (c : String) (i : Value) (v : Int) :
    SameStores (get_document st c i v).2 st := by
  unfold get_document
  split
  · next doc st1 heq =>
      have h1 : SameStores st1 st := by
        have := stores_getFromCache st c i
        rw [heq] at this
        exact this
      split
      · exact sameStores_trans (stores_getDocFetch st1 c i v) h1
      · exact h1
  · next st1 heq =>
      have h1 : SameStores st1 st := by
        have := stores_getFromCache st c i
        rw [heq] at this
        exact this
      exact sameStores_trans (stores_getDocFetch st1 c i v) h1

theorem stores_check_link (st : DB) (c : String) (pid : Value) (tc : String)
    (td : Value) (errs : List String) :
    SameStores (check_link st c pid tc td errs).2 st := by
  have h := stores_get_document st tc td 0
  unfold check_link
  split
  · next heq =>
      rw [heq] at h
      split
      · exact h
      · exact h
  · next heq => rw [heq] at h; exact h
  · next heq => rw [heq] at h; exact h

theorem stores_check_links (st : DB) (c : String) (pid : Value) (tc : String)
    (xs : VList) (errs : List String) :
    SameStores (check_links st c pid tc xs errs).2 st := by
  cases xs with
  | nil => exact ⟨rfl, rfl, rfl⟩
  | cons v vs =>
      have hlink := stores_check_link st c pid tc v errs
      unfold check_links
      cases hcl : check_link st c pid tc v errs with
      | mk r st1 =>
          rw [hcl] at hlink
          cases r with
          | ok e1 => exact sameStores_trans (stores_check_links st1 c pid tc vs e1) hlink
          | error e => exact hlink

theorem sameStores_bind (st : DB) (p : Except Err (List String) × DB)
    (k : DB → List String → Except Err (List String) × DB)
    (hp : SameStores p.2 st)
    (hk : ∀ st1 e1, SameStores (k st1 e1).2 st1) :
    SameStores ((match p with
      | (.ok e1, st1) => k st1 e1
      | (.error e, st1) => ((Except.error e : Except Err (List String)), st1)).2) st := by
  obtain ⟨r, st1⟩ := p
  cases r with
  | ok e1 => exact sameStores_trans (hk st1 e1) hp
  | error e => exact hp

mutual

theorem stores_check_dict (st : DB) (c : String) (pid : Value) (doc : Fields)
    (errs : List String) : SameStores (check_dict st c pid doc errs).2 st := by
  cases doc with
  | nil => exact ⟨rfl, rfl, rfl⟩
  | cons key value rest =>
      by_cases hk : startsWithCh (Char.ofNat 64) key = true
      · cases value with
        | vstr s =>
            have hun : check_dict st c pid (.cons key (.vstr s) rest) errs =
                (match check_link st c pid (dropFirst key) (.vstr s) errs with
                 | (.ok errs1, st1) => check_dict st1 c pid rest errs1
                 | (.error e, st1) => (.error e, st1)) := by
              conv_lhs => unfold check_dict
              rw [if_pos hk]
            rw [hun]
            exact sameStores_bind st _ (fun st1 e1 => check_dict st1 c pid rest e1)
              (stores_check_link st c pid (dropFirst key) (.vstr s) errs)
              (fun st1 e1 => stores_check_dict st1 c pid rest e1)
        | varr xs =>
            have hun : check_dict st c pid (.cons key (.varr xs) rest) errs =
                (match check_links st c pid (dropFirst key) xs errs with
                 | (.ok errs1, st1) => check_dict st1 c pid rest errs1
                 | (.error e, st1) => (.error e, st1)) := by
              conv_lhs => unfold check_dict
              rw [if_pos hk]
            rw [hun]
            exact sameStores_bind st _ (fun st1 e1 => check_dict st1 c pid rest e1)
              (stores_check_links st c pid (dropFirst key) xs errs)
              (fun st1 e1 => stores_check_dict st1 c pid rest e1)
        | vint n =>
            have hun : check_dict st c pid (.cons key (.vint n) rest) errs =
                (.error (.valueError ("Wrong type in " ++ vShow pid ++ " " ++ key)), st) := by
              conv_lhs => unfold check_dict
              rw [if_pos hk]
            rw [hun]
            exact ⟨rfl, rfl, rfl⟩
        | vbool b =>
            have hun : check_dict st c pid (.cons key (.vbool b) rest) errs =
                (.error (.valueError ("Wrong type in " ++ vShow pid ++ " " ++ key)), st) := by
              conv_lhs => unfold check_dict
              rw [if_pos hk]
            rw [hun]
            exact ⟨rfl, rfl, rfl⟩
        | vnull =>
            have hun : check_dict st c pid (.cons key .vnull rest) errs =
                (.error (.valueError ("Wrong type in " ++ vShow pid ++ " " ++ key)), st) := by
              conv_lhs => unfold check_dict
              rw [if_pos hk]
            rw [hun]
            exact ⟨rfl, rfl, rfl⟩
        | vobj fs =>
            have hun : check_dict st c pid (.cons key (.vobj fs) rest) errs =
                (.error (.valueError ("Wrong type in " ++ vShow pid ++ " " ++ key)), st) := by
              conv_lhs => unfold check_dict
              rw [if_pos hk]
            rw [hun]
            exact ⟨rfl, rfl, rfl⟩
      · cases value with
        | vobj sub =>
            have hun : check_dict st c pid (.cons key (.vobj sub) rest) errs =
                (match check_dict st c pid sub errs with
                 | (.ok errs1, st1) => check_dict st1 c pid rest errs1
                 | (.error e, st1) => (.error e, st1)) := by
              conv_lhs => unfold check_dict
              rw [if_neg hk]
            rw [hun]
            exact sameStores_bind st _ (fun st1 e1 => check_dict st1 c pid rest e1)
              (stores_check_dict st c pid sub errs)
              (fun st1 e1 => stores_check_dict st1 c pid rest e1)
        | varr xs =>
            have hun : check_dict st c pid (.cons key (.varr xs) rest) errs =
                (match check_list st c pid xs errs with
                 | (.ok errs1, st1) => check_dict st1 c pid rest errs1
                 | (.error e, st1) => (.error e, st1)) := by
              conv_lhs => unfold check_dict
              rw [if_neg hk]
            rw [hun]
            exact sameStores_bind st _ (fun st1 e1 => check_dict st1 c pid rest e1)
              (stores_check_list st c pid xs errs)
              (fun st1 e1 => stores_check_dict st1 c pid rest e1)
        | vstr s =>
            have hun : check_dict st c pid (.cons key (.vstr s) rest) errs =
                check_dict st c pid rest errs := by
              conv_lhs => unfold check_dict
              rw [if_neg hk]
            rw [hun]
            exact stores_check_dict st c pid rest errs
        | vint n =>
            have hun : check_dict st c pid (.cons key (.vint n) rest) errs =
                check_dict st c pid rest errs := by
              conv_lhs => unfold check_dict
              rw [if_neg hk]
            rw [hun]
            exact stores_check_dict st c pid rest errs
        | vbool b =>
            have hun : check_dict st c pid (.cons key (.vbool b) rest) errs =
                check_dict st c pid rest errs := by
              conv_lhs => unfold check_dict
              rw [if_neg hk]
            rw [hun]
            exact stores_check_dict st c pid rest errs
        | vnull =>
            have hun : check_dict st c pid (.cons key .vnull rest) errs =
                check_dict st c pid rest errs := by
              conv_lhs => unfold check_dict
              rw [if_neg hk]
            rw [hun]
            exact stores_check_dict st c pid rest errs

theorem stores_check_list (st : DB) (c : String) (pid : Value) (xs : VList)
    (errs : List String) : SameStores (check_list st c pid xs errs).2 st := by
  cases xs with
  | nil => exact ⟨rfl, rfl, rfl⟩
  | cons v vs =>
      cases v with
      | vobj sub =>
          have hun : check_list st c pid (.cons (.vobj sub) vs) errs =
              (match check_dict st c pid sub errs with
               | (.ok errs1, st1) => check_list st1 c pid vs errs1
               | (.error e, st1) => (.error e, st1)) := by
            conv_lhs => unfold check_list
          rw [hun]
          exact sameStores_bind st _ (fun st1 e1 => check_list st1 c pid vs e1)
            (stores_check_dict st c pid sub errs)
            (fun st1 e1 => stores_check_list st1 c pid vs e1)
      | vstr s => exact stores_check_list st c pid vs errs
      | vint n => exact stores_check_list st c pid vs errs
      | vbool b => exact stores_check_list st c pid vs errs
      | vnull => exact stores_check_list st c pid vs errs
      | varr ys => exact stores_check_list st c pid vs errs

end

theorem sameStores_bindE {α : Type} (st : DB) (p : Except Err (List String) × DB)
    (k : DB → List String → Except Err α × DB)
    (hp : SameStores p.2 st)
    (hk : ∀ st1 e1, SameStores (k st1 e1).2 st1) :
    SameStores ((match p with
      | (.error e, st1) => ((Except.error e : Except Err α), st1)
      | (.ok e1, st1) => k st1 e1).2) st := by
  obtain ⟨r, st1⟩ := p
  cases r with
  | ok e1 => exact sameStores_trans (hk st1 e1) hp
  | error e => exact hp

theorem stores_healthcheck_docs (cfg : Cfg) (col : String)
    (schema : Option SchemaCheck) (docs : List Doc) :
    ∀ st errors warnings,
      SameStores (healthcheck_docs cfg st col schema docs errors warnings).2 st := by
  induction docs with
  | nil => intro st errors warnings; exact ⟨rfl, rfl, rfl⟩
  | cons doc rest ih =>
      intro st errors warnings
      unfold healthcheck_docs
      cases hid : doc.get? "#id" with
      | none => exact ⟨rfl, rfl, rfl⟩
      | some did =>
          cases hauth : doc.get? "#author" with
          | none => exact ⟨rfl, rfl, rfl⟩
          | some auth =>
              refine sameStores_bindE st _ _ (stores_check_link _ _ _ _ _ _) ?_
              intro st1 e1
              refine sameStores_bindE st1 _ _ (stores_check_dict _ _ _ _ _) ?_
              intro st2 e2
              cases hw : warning_check col doc warnings with
              | error e => exact ⟨rfl, rfl, rfl⟩
              | ok w1 => exact ih st2 e2 w1

theorem stores_healthcheck_cols (cfg : Cfg) (cols : List String) :
    ∀ st errors warnings,
      SameStores (healthcheck_cols cfg st cols errors warnings).2 st := by
  induction cols with
  | nil => intro st errors warnings; exact ⟨rfl, rfl, rfl⟩
  | cons col rest ih =>
      intro st errors warnings
      cases hgd : get_documents st col (fun _ => true) false with
      | error e =>
          have hun : healthcheck_cols cfg st (col :: rest) errors warnings =
              ((Except.error e : Except Err (List String × List String)), st) := by
            conv_lhs => unfold healthcheck_cols
            rw [hgd]
          rw [hun]
          exact ⟨rfl, rfl, rfl⟩
      | ok docs =>
          have hun : healthcheck_cols cfg st (col :: rest) errors warnings =
              (match healthcheck_docs cfg st col (cfg.collSchemas col) docs
                  errors warnings with
               | (.error e, st1) => (.error e, st1)
               | (.ok (errs1, warns1), st1) =>
                   healthcheck_cols cfg st1 rest errs1 warns1) := by
            conv_lhs => unfold healthcheck_cols
            rw [hgd]
          rw [hun]
          have hd := stores_healthcheck_docs cfg col (cfg.collSchemas col) docs
            st errors warnings
          cases hhd : healthcheck_docs cfg st col (cfg.collSchemas col) docs
              errors warnings with
          | mk r st1 =>
              rw [hhd] at hd
              cases r with
              | error e => exact hd
              | ok p =>
                  obtain ⟨e1, w1⟩ := p
                  exact sameStores_trans (ih st1 e1 w1) hd

theorem healthcheck_unfolded (cfg : Cfg) (st : DB) (cols : List String) :
    healthcheck cfg st cols =
      (match healthcheck_cols cfg st
          (if cols.isEmpty then collectionNames else cols) [] [] with
       | (.ok (errors, warnings), st1) => (.ok ⟨none, errors, warnings⟩, st1)
       | (.error e, st1) => (.error e, st1)) := by
  conv_lhs => unfold healthcheck

theorem stores_healthcheck (cfg : Cfg) (st : DB) (cols : List String) :
    SameStores (healthcheck cfg st cols).2 st := by
  rw [healthcheck_unfolded]
  have h := stores_healthcheck_cols cfg
    (if cols.isEmpty then collectionNames else cols) st [] []
  cases hhc : healthcheck_cols cfg st
      (if cols.isEmpty then collectionNames else cols) [] [] with
  | mk r st1 =>
      rw [hhc] at h
      cases r with
      | error e => exact h
      | ok p =>
          obtain ⟨e1, w1⟩ := p
          exact h

/-- Claim C2 (corrected): healthcheck aggregates the Validator, link-scan,
author-link and deprecation diagnostics across every document of the requested
collections into its local (errors, warnings) lists and performs no mutation
of the current or history stores (only the read-through cache is touched) —
but the Python function body has no return statement, so the aggregated pair
is printed and then discarded: the call returns None, not the pair. -/
theorem claim_C2_amended (cfg : Cfg) (st : DB) (cols : List String) :
    (healthcheck cfg st cols).2.current = st.current ∧
    (healthcheck cfg st cols).2.history = st.history ∧
    (∀ rep, (healthcheck cfg st cols).1 = .ok rep → rep.retval = none) := by
  refine ⟨(stores_healthcheck cfg st cols).1, (stores_healthcheck cfg st cols).2.1, ?_⟩
  intro rep h
  rw [healthcheck_unfolded] at h
  cases hhc : healthcheck_cols cfg st
      (if cols.isEmpty then collectionNames else cols) [] [] with
  | mk r st1 =>
      rw [hhc] at h
      cases r with
      | error e => simp at h
      | ok p =>
          obtain ⟨e1, w1⟩ := p
          simp at h
          rw [← h]

/-- Counterexample to C2 as stated: on `c2DB` healthcheck finds one broken
author link, so the aggregated error list is nonempty, yet the value the
function returns is None (`retval = none`), not the (errors, warnings) pair. -/
theorem claim_C2_cx :
    (healthcheck cfg0 c2DB ["sensors"]).1 =
      .ok ⟨none, [brokenLink "sensors" (.vstr "s1") "people" (.vstr "nobody")], []⟩ ∧
    (none : Option (List String × List String)) ≠
      some ([brokenLink "sensors" (.vstr "s1") "people" (.vstr "nobody")], []) :=
  ⟨rfl, by simp⟩

/-- Witness for C2-a (amended) at a concrete state: the stores are unchanged
and the returned report carries `retval = none`. -/
theorem claim_C2_witness :
    (healthcheck cfg0 c2DB ["sensors"]).2.current = c2DB.current ∧
    (healthcheck cfg0 c2DB ["sensors"]).2.history = c2DB.history ∧
    HealthReport.retval ⟨none,
      [brokenLink "sensors" (.vstr "s1") "people" (.vstr "nobody")], []⟩ = none :=
  ⟨(claim_C2_amended cfg0 c2DB ["sensors"]).1,
   (claim_C2_amended cfg0 c2DB ["sensors"]).2.1,
   (claim_C2_amended cfg0 c2DB ["sensors"]).2.2 _ rfl⟩

/- ------------------------------------------------------------------ -/
/- Cache dictionary lemmas -/
/- ------------------------------------------------------------------ -/

theorem cacheLookup_all_false (l : CacheCol) (k : Value)
    (h : ∀ e ∈ l, Value.beq e.1 k = false) : cacheLookup l k = none := by
  induction l with
  | nil => rfl
  | cons e rest ih =>
      obtain ⟨k2, td⟩ := e
      have h2 : Value.beq k2 k = false := h (k2, td) (by simp)
      simp [cacheLookup, h2, ih (fun e2 he => h e2 (by simp [he]))]

theorem cacheLookup_none_all (l : CacheCol) (k : Value)
    (h : cacheLookup l k = none) : ∀ e ∈ l, Value.beq e.1 k = false := by
  induction l with
  | nil => intro e he; simp at he
  | cons e2 rest ih =>
      obtain ⟨k2, td⟩ := e2
      by_cases hb : Value.beq k2 k = true
      · exfalso
        simp [cacheLookup, hb] at h
      · have hb2 : Value.beq k2 k = false := by
          simpa using hb
        have ht : cacheLookup rest k = none := by
          simpa [cacheLookup, hb2] using h
        intro e he
        rcases List.mem_cons.mp he with he1 | he2
        · rw [he1]; exact hb2
        · exact ih ht e he2

theorem cacheSet_append (l : CacheCol) (k : Value) (td : Nat × Doc)
    (h : cacheLookup l k = none) : cacheSet l k td = l ++ [(k, td)] := by
  induction l with
  | nil => rfl
  | cons e rest ih =>
      obtain ⟨k2, td2⟩ := e
      have h2 : Value.beq k2 k = false := cacheLookup_none_all _ _ h (k2, td2) (by simp)
      have ht : cacheLookup rest k = none := by
        simpa [cacheLookup, h2] using h
      simp [cacheSet, h2, ih ht]

theorem cacheLookup_append_self (l : CacheCol) (k : Value) (td : Nat × Doc)
    (h : cacheLookup l k = none) (hrefl : Value.beq k k = true) :
    cacheLookup (l ++ [(k, td)]) k = some td := by
  induction l with
  | nil => simp [cacheLookup, hrefl]
  | cons e rest ih =>
      obtain ⟨k2, td2⟩ := e
      have h2 : Value.beq k2 k = false := cacheLookup_none_all _ _ h (k2, td2) (by simp)
      have ht : cacheLookup rest k = none := by
        simpa [cacheLookup, h2] using h
      simp [cacheLookup, h2, ih ht]

theorem cacheRemove_lookup_none (l : CacheCol) (s : String) (hwf : cacheColWF l) :
    cacheLookup (cacheRemove l (.vstr s)) (.vstr s) = none := by
  induction l with
  | nil => rfl
  | cons e rest ih =>
      obtain ⟨k2, td⟩ := e
      obtain ⟨t, hk2⟩ := hwf.1 (k2, td) (by simp)
      simp only at hk2
      subst hk2
      by_cases ht : t = s
      · subst ht
        have hb : Value.beq (Value.vstr t) (.vstr t) = true := by simp [Value.beq]
        simp only [cacheRemove, hb, if_true]
        apply cacheLookup_all_false
        intro e2 he
        obtain ⟨u, hu⟩ := hwf.1 e2 (by simp [he])
        have hne : (Value.vstr t, td).1 ≠ e2.1 :=
          (List.pairwise_cons.mp hwf.2).1 e2 he
        rw [hu] at hne ⊢
        simp only at hne
        have hut : ¬ u = t := fun h2 => hne (by rw [h2])
        simp [Value.beq]
        exact hut
      · have hb : Value.beq (Value.vstr t) (.vstr s) = false := by
          simp [Value.beq, ht]
        have hwfr : cacheColWF rest :=
          ⟨fun e2 he => hwf.1 e2 (by simp [he]), (List.pairwise_cons.mp hwf.2).2⟩
        simp [cacheRemove, hb, cacheLookup, ih hwfr]

theorem getFromCache_miss_none (st : DB) (c : String) (s : String) (st1 : DB)
    (hwf : cacheColWF (st.cache c))
    (h : getFromCache st c (.vstr s) = (none, st1)) :
    cacheLookup (st1.cache c) (.vstr s) = none := by
  cases hcl : cacheLookup (st.cache c) (.vstr s) with
  | none =>
      have hg : getFromCache st c (.vstr s) = (none, st) := by
        unfold getFromCache
        rw [hcl]
      rw [hg] at h
      injection h with h1 h2
      rw [← h2]
      exact hcl
  | some td =>
      obtain ⟨t, d⟩ := td
      have hg : getFromCache st c (.vstr s) =
          (if st.now - t > cacheTimeoutS then
            ((none : Option Doc),
             { st with cache := updCol st.cache c (cacheRemove (st.cache c) (.vstr s)) })
          else (some d, st)) := by
        unfold getFromCache
        rw [hcl]
      rw [hg] at h
      by_cases hstale : st.now - t > cacheTimeoutS
      · rw [if_pos hstale] at h
        injection h with h1 h2
        rw [← h2]
        show cacheLookup (updCol st.cache c (cacheRemove (st.cache c) (.vstr s)) c)
          (.vstr s) = none
        rw [updCol_same]
        exact cacheRemove_lookup_none _ _ hwf
      · rw [if_neg hstale] at h
        injection h with h1 h2
        exact absurd h1 (by simp)

theorem matchesIdVer_get (i : Value) (v : Int) (d : Doc)
    (h : matchesIdVer i v d = true) :
    ∃ w, d.get? "#id" = some w ∧ Value.beq w i = true := by
  unfold matchesIdVer idMatches at h
  cases hg : d.get? "#id" with
  | none => rw [hg] at h; simp at h
  | some w =>
      rw [hg] at h
      simp only [Bool.and_eq_true] at h
      exact ⟨w, rfl, h.1⟩

theorem beq_vstr_right (w : Value) (s : String) (h : Value.beq w (.vstr s) = true) :
    w = .vstr s := by
  cases w with
  | vstr s2 =>
      simp only [Value.beq, beq_iff_eq] at h
      rw [h]
  | vint n => simp [Value.beq] at h
  | vbool b => simp [Value.beq] at h
  | vnull => simp [Value.beq] at h
  | varr xs => simp [Value.beq] at h
  | vobj fs => simp [Value.beq] at h

/- ------------------------------------------------------------------ -/
/- Characterization of get_document -/
/- ------------------------------------------------------------------ -/

theorem get_document_miss (st st1 : DB) (c : String) (i : Value) (v : Int)
    (hmiss : getFromCache st c i = (none, st1)) :
    get_document st c i v = getDocFetch st1 c i v := by
  unfold get_document
  rw [hmiss]

theorem get_document_cache_hit (st : DB) (c : String) (i : Value) (v : Int)
    (t : Nat) (d : Doc)
    (hlk : cacheLookup (st.cache c) i = some (t, d))
    (hfresh : ¬ st.now - t > cacheTimeoutS)
    (hne : d.isEmpty = false) :
    get_document st c i v = (.ok d, st) := by
  have hgf : getFromCache st c i =
      (if st.now - t > cacheTimeoutS then
        ((none : Option Doc),
         { st with cache := updCol st.cache c (cacheRemove (st.cache c) i) })
      else (some d, st)) := by
    unfold getFromCache
    rw [hlk]
  have hgf2 : getFromCache st c i = (some d, st) := by
    rw [hgf, if_neg hfresh]
  unfold get_document
  rw [hgf2]
  show (if d.isEmpty = true then getDocFetch st c i v
    else ((Except.ok d : Except Err Doc), st)) = (.ok d, st)
  rw [hne]
  rfl

theorem getDocFetch_cases (st : DB) (c : String) (i : Value) (v : Int)
    (hc : c ∈ collectionNames) (ms : List Doc)
    (hm : (if (v == 0) = true then st.current c else st.history c).filter
        (matchesIdVer i v) = ms) :
    (ms = [] → getDocFetch st c i v =
        (.error (.lookupError (docNotFoundMsg c i)), st)) ∧
    (∀ d, ms = [d] →
        ∃ w, d.get? "#id" = some w ∧ Value.beq w i = true ∧
          getDocFetch st c i v =
            (.ok d,
             { st with cache := updCol st.cache c (cacheSet (st.cache c) w (st.now, d)) })) ∧
    (∀ d1 d2 ds, ms = d1 :: d2 :: ds →
        getDocFetch st c i v =
          (.error (.assertionError (multiDocMsg (d1 :: d2 :: ds).length c i)), st)) := by
  refine ⟨?_, ?_, ?_⟩
  · intro h
    subst h
    unfold getDocFetch
    rw [if_pos hc, hm]
  · intro d h
    subst h
    have hd : matchesIdVer i v d = true := by
      have hmem : d ∈ (if (v == 0) = true then st.current c
          else st.history c).filter (matchesIdVer i v) := by
        rw [hm]; simp
      exact (List.mem_filter.mp hmem).2
    obtain ⟨w, hw, hbw⟩ := matchesIdVer_get i v d hd
    refine ⟨w, hw, hbw, ?_⟩
    unfold getDocFetch
    rw [if_pos hc, hm]
    show (match addToCache st c d with
      | (.ok _, st2) => ((Except.ok d : Except Err Doc), st2)
      | (.error e, st2) => (.error e, st2)) = _
    unfold addToCache
    rw [hw]
  · intro d1 d2 ds h
    subst h
    unfold getDocFetch
    rw [if_pos hc, hm]

theorem cacheColWF_nil : cacheColWF [] :=
  ⟨fun e he => absurd he (List.not_mem_nil e), List.Pairwise.nil⟩

/-- Counterexample to C1 as stated: on `c1DB` the cache freshly holds the
version-2 snapshot of s1.  A get with `version=1` does not bypass the cache —
the cache is consulted before the version argument is even read — so it
returns the version-2 content B instead of the version-1 content A that the
history store holds for that version. -/
theorem claim_C1_cx :
    (c1DB.history "sensors").filter (matchesIdVer (.vstr "s1") 1) = [dV1A] ∧
    (get_document c1DB "sensors" (.vstr "s1") 1).1 = .ok dV2B ∧
    dV2B.get? "#version" = some (.vint 2) ∧
    dV1A.get? "name" = some (.vstr "A") ∧
    dV2B.get? "name" = some (.vstr "B") ∧
    (get_document c1DB "sensors" (.vstr "s1") 1).1 ≠ .ok dV1A := by
  refine ⟨rfl, rfl, rfl, rfl, rfl, ?_⟩
  intro h
  rw [show (get_document c1DB "sensors" (.vstr "s1") 1).1 = .ok dV2B from rfl] at h
  simp [dV2B, dV1A, fieldsOf] at h

/-- Claim C1 (corrected): when the cache has no fresh entry for (collection,
identifier) — only then is the cache bypassed — a get with a version argument
reads the history store filtered by identifier and version: it fails NotFound
(LookupError) on zero matches, returns the unique match (the content stored
at that version, independent of the current store), and fails Inconsistent
(AssertionError) on more than one match.  When a fresh cache entry exists it
is returned as-is, regardless of the version argument. -/
theorem claim_C1_amended (st st1 : DB) (c s : String) (v : Int)
    (hv : v ≠ 0) (hc : c ∈ collectionNames)
    (hmiss : getFromCache st c (.vstr s) = (none, st1)) :
    ((st1.history c).filter (matchesIdVer (.vstr s) v) = [] →
      (get_document st c (.vstr s) v).1 =
        .error (.lookupError (docNotFoundMsg c (.vstr s)))) ∧
    (∀ d, (st1.history c).filter (matchesIdVer (.vstr s) v) = [d] →
      (get_document st c (.vstr s) v).1 = .ok d) ∧
    (∀ d1 d2 ds, (st1.history c).filter (matchesIdVer (.vstr s) v) = d1 :: d2 :: ds →
      (get_document st c (.vstr s) v).1 =
        .error (.assertionError (multiDocMsg (d1 :: d2 :: ds).length c (.vstr s)))) := by
  have hif : (if (v == 0) = true then st1.current c else st1.history c)
      = st1.history c := by
    have h2 : (v == 0) = false := beq_eq_false_iff_ne.mpr hv
    simp [h2]
  have hmg := get_document_miss st st1 c (.vstr s) v hmiss
  have hcases := getDocFetch_cases st1 c (.vstr s) v hc
    ((st1.history c).filter (matchesIdVer (.vstr s) v)) (by rw [hif])
  refine ⟨?_, ?_, ?_⟩
  · intro h
    rw [hmg, hcases.1 h]
  · intro d h
    obtain ⟨w, hw, hbw, heq⟩ := hcases.2.1 d h
    rw [hmg, heq]
  · intro d1 d2 ds h
    rw [hmg, hcases.2.2 d1 d2 ds h]

/-- Witness for C1 (amended) at concrete states with an empty cache: the
versioned get returns exactly the version-1 snapshot, and an unrecorded id
fails NotFound. -/
theorem claim_C1_witness :
    (get_document c1W "sensors" (.vstr "s1") 1).1 = .ok dV1A ∧
    (get_document c1W "sensors" (.vstr "zz") 1).1 =
      .error (.lookupError (docNotFoundMsg "sensors" (.vstr "zz"))) :=
  ⟨(claim_C1_amended c1W c1W "sensors" "s1" 1 (by decide) (by decide) rfl).2.1
      dV1A rfl,
   (claim_C1_amended c1W c1W "sensors" "zz" 1 (by decide) (by decide) rfl).1 rfl⟩

/-- Claim C10 (confirmed): a get that misses the cache and succeeds —
including a versioned get reading the history store — inserts the fetched
document into the cache keyed only by (collection, identifier), with no
version in the key; consequently an unversioned get for the same identifier
issued within the TTL returns that (possibly historical) snapshot. -/
theorem claim_C10 (st st1 : DB) (c s : String) (v : Int) (d : Doc) (dt : Nat)
    (hwf : cacheColWF (st.cache c))
    (hmiss : getFromCache st c (.vstr s) = (none, st1))
    (hok : (get_document st c (.vstr s) v).1 = .ok d)
    (hne : d.isEmpty = false)
    (hdt : dt ≤ cacheTimeoutS) :
    cacheLookup ((get_document st c (.vstr s) v).2.cache c) (.vstr s) =
      some (st.now, d) ∧
    (get_document (tick (get_document st c (.vstr s) v).2 dt) c (.vstr s) 0).1 =
      .ok d := by
  have hnone := getFromCache_miss_none st c s st1 hwf hmiss
  have hnow : st1.now = st.now := by
    have h2 := stores_getFromCache st c (.vstr s)
    rw [hmiss] at h2
    exact h2.2.2
  have hmg := get_document_miss st st1 c (.vstr s) v hmiss
  rw [hmg] at hok ⊢
  by_cases hc : c ∈ collectionNames
  case neg =>
      exfalso
      unfold getDocFetch at hok
      rw [if_neg hc] at hok
      simp at hok
  case pos =>
  have hcases := getDocFetch_cases st1 c (.vstr s) v hc
    ((if (v == 0) = true then st1.current c else st1.history c).filter
      (matchesIdVer (.vstr s) v)) rfl
  cases hL : (if (v == 0) = true then st1.current c else st1.history c).filter
      (matchesIdVer (.vstr s) v) with
  | nil =>
      exfalso
      rw [hcases.1 hL] at hok
      simp at hok
  | cons d0 rest =>
      cases rest with
      | cons d2 ds =>
          exfalso
          rw [hcases.2.2 d0 d2 ds hL] at hok
          simp at hok
      | nil =>
          obtain ⟨w, hw, hbw, heq⟩ := hcases.2.1 d0 hL
          have hwid : w = .vstr s := beq_vstr_right w s hbw
          subst hwid
          rw [heq] at hok ⊢
          have hdd : d0 = d := by simpa using hok
          subst hdd
          set st2 : DB := { st1 with cache := updCol st1.cache c (cacheSet (st1.cache c) (.vstr s) (st1.now, d0)) } with hst2
          have hlk2 : cacheLookup (st2.cache c) (.vstr s) = some (st1.now, d0) := by
            rw [hst2]
            show cacheLookup ((updCol st1.cache c (cacheSet (st1.cache c) (.vstr s) (st1.now, d0))) c) (.vstr s) = some (st1.now, d0)
            rw [updCol_same, cacheSet_append _ _ _ hnone,
              cacheLookup_append_self _ _ _ hnone (by simp [Value.beq])]
          constructor
          · rw [show ((Except.ok d0 : Except Err Doc), st2).2 = st2 from rfl, hlk2, hnow]
          · have hfresh : ¬ (tick st2 dt).now - st1.now > cacheTimeoutS := by
              rw [hst2]
              show ¬ st1.now + dt - st1.now > cacheTimeoutS
              rw [Nat.add_sub_cancel_left]
              omega
            have hlk3 : cacheLookup ((tick st2 dt).cache c) (.vstr s) =
                some (st1.now, d0) := hlk2
            rw [get_document_cache_hit (tick st2 dt) c (.vstr s) 0 st1.now d0
              hlk3 hfresh hne]

/-- Witness for C10 at a concrete state: the versioned get of s1 at version 1
caches the version-1 snapshot under (sensors, s1), and an unversioned get 10
seconds later returns that snapshot although the current store holds
version 2. -/
theorem claim_C10_witness :
    cacheLookup ((get_document c1W "sensors" (.vstr "s1") 1).2.cache "sensors")
      (.vstr "s1") = some (c1W.now, dV1A) ∧
    (get_document (tick (get_document c1W "sensors" (.vstr "s1") 1).2 10)
      "sensors" (.vstr "s1") 0).1 = .ok dV1A :=
  claim_C10 c1W c1W "sensors" "s1" 1 dV1A 10 cacheColWF_nil rfl rfl rfl (by decide)

/- ------------------------------------------------------------------ -/
/- Field lookup and validation helper lemmas -/
/- ------------------------------------------------------------------ -/

theorem get?_set_self (f : Fields) (k : String) (v : Value) :
    (f.set k v).get? k = some v := by
  cases f with
  | nil => simp [Fields.set, Fields.get?]
  | cons k2 w rest =>
      by_cases h : k2 = k
      · subst h
        simp [Fields.set, Fields.get?]
      · simp [Fields.set, Fields.get?, h, get?_set_self rest k v]

theorem get?_set_other (f : Fields) (k k2 : String) (v : Value) (h : k2 ≠ k) :
    (f.set k v).get? k2 = f.get? k2 := by
  cases f with
  | nil => simp [Fields.set, Fields.get?, Ne.symm h]
  | cons k3 w rest =>
      by_cases h3 : k3 = k
      · subst h3
        simp [Fields.set, Fields.get?, Ne.symm h]
      · simp [Fields.set, Fields.get?, h3, get?_set_other rest k k2 v h]

theorem get?_append_left (a b : Fields) (k : String) (w : Value)
    (h : a.get? k = some w) : (Fields.append a b).get? k = some w := by
  cases a with
  | nil => simp [Fields.get?] at h
  | cons k2 v rest =>
      by_cases h2 : k2 = k
      · subst h2
        simp [Fields.get?, Fields.append] at h ⊢
        exact h
      · simp [Fields.get?, Fields.append, h2] at h ⊢
        exact get?_append_left rest b k w h

theorem validate_document_noexc (cfg : Cfg) (doc : Doc) (c : String) :
    ∃ b, (validate_document cfg doc c false).outcome = .ok b := by
  cases hs : cfg.collSchemas c with
  | none =>
      by_cases he : (validate_schema cfg.metaSchema doc []).isEmpty
      · exact ⟨true, by simp [validate_document, hs, he]⟩
      · exact ⟨false, by simp [validate_document, hs, he]⟩
  | some check =>
      by_cases he : (validate_schema check doc
          (validate_schema cfg.metaSchema doc [])).isEmpty
      · exact ⟨true, by simp [validate_document, hs, he]⟩
      · exact ⟨false, by simp [validate_document, hs, he]⟩

/-- Claim C7 (confirmed): an insert without forceMeta of a valid document
into an empty collection (with no cache entries for it) succeeds and returns
the stored document with version 1, creation timestamp equal to the
modification timestamp (both the current instant), the supplied author or the
configured default author when none is supplied, and the caller's
non-metadata content merged after the generated metadata; a subsequent get
returns the same document. -/
theorem claim_C7 (cfg : Cfg) (st : DB) (c : String) (document : Doc)
    (author s a : String) (nd : Doc)
    (ha : a = (if author = "" then cfg.defaultAuthor else author))
    (hnd : nd = freshDoc st.now (.vstr s) a document)
    (hc : c ∈ collectionNames) (hempty : st.current c = [])
    (hid : document.get? "#id" = some (.vstr s))
    (hcache : st.cache c = [])
    (hvalid : (validate_document cfg nd c true).outcome = .ok true) :
    insert_document cfg st c document author false false false =
      (.ok nd, { st with
        current := updCol st.current c (st.current c ++ [nd]),
        history := updCol st.history c (st.history c ++ [nd]) }) ∧
    nd.get? "#version" = some (.vint 1) ∧
    nd.get? "#creationDate" = some (.vstr (tsString st.now)) ∧
    nd.get? "#modificationDate" = some (.vstr (tsString st.now)) ∧
    nd.get? "#author" = some (.vstr a) ∧
    nd = Fields.append (.cons "#id" (.vstr s) (.cons "#version" (.vint 1)
      (.cons "#creationDate" (.vstr (tsString st.now))
        (.cons "#modificationDate" (.vstr (tsString st.now))
          (.cons "#author" (.vstr a) .nil))))) document.dropMeta ∧
    (get_document (insert_document cfg st c document author false false false).2
        c (.vstr s) 0).1 = .ok nd := by
  subst ha
  subst hnd
  have hids : get_identifiers st c = .ok [] := by
    unfold get_identifiers get_documents
    rw [if_pos hc, hempty]
    rfl
  have hins : insert_document cfg st c document author false false false =
      (.ok (freshDoc st.now (.vstr s)
        (if author = "" then cfg.defaultAuthor else author) document),
       { st with
         current := updCol st.current c (st.current c ++
           [freshDoc st.now (.vstr s)
             (if author = "" then cfg.defaultAuthor else author) document]),
         history := updCol st.history c (st.history c ++
           [freshDoc st.now (.vstr s)
             (if author = "" then cfg.defaultAuthor else author) document]) }) := by
    unfold insert_document
    rw [if_pos hc, hid, hids]
    show (match (validate_document cfg (freshDoc st.now (.vstr s)
        (if author = "" then cfg.defaultAuthor else author) document) c
          true).outcome with
      | .error e => ((Except.error e : Except Err Doc), st)
      | .ok _ =>
          (.ok (freshDoc st.now (.vstr s)
            (if author = "" then cfg.defaultAuthor else author) document),
           { st with
             current := updCol st.current c (st.current c ++
               [freshDoc st.now (.vstr s)
                 (if author = "" then cfg.defaultAuthor else author) document]),
             history := updCol st.history c (st.history c ++
               [freshDoc st.now (.vstr s)
                 (if author = "" then cfg.defaultAuthor else author) document]) })) = _
    rw [hvalid]
  refine ⟨hins, ?_, ?_, ?_, ?_, ?_, ?_⟩
  · simp [freshDoc, Fields.get?]
  · simp [freshDoc, Fields.get?]
  · simp [freshDoc, Fields.get?]
  · simp [freshDoc, Fields.get?]
  · rfl
  · rw [hins]
    have hmiss2 : getFromCache (insert_document cfg st c document author
        false false false).2 c (.vstr s) =
        (none, (insert_document cfg st c document author false false false).2) := by
      rw [hins]
      unfold getFromCache
      have h3 : ({ st with
          current := updCol st.current c (st.current c ++
            [freshDoc st.now (.vstr s)
              (if author = "" then cfg.defaultAuthor else author) document]),
          history := updCol st.history c (st.history c ++
            [freshDoc st.now (.vstr s)
              (if author = "" then cfg.defaultAuthor else author) document]) }
            : DB).cache c = [] := hcache
      rw [h3]
      rfl
    rw [hins] at hmiss2
    rw [get_document_miss _ _ _ _ _ hmiss2]
    have hfil : (if ((0 : Int) == 0) = true then
        ({ st with
           current := updCol st.current c (st.current c ++
             [freshDoc st.now (.vstr s)
               (if author = "" then cfg.defaultAuthor else author) document]),
           history := updCol st.history c (st.history c ++
             [freshDoc st.now (.vstr s)
               (if author = "" then cfg.defaultAuthor else author) document]) }
          : DB).current c
        else ({ st with
           current := updCol st.current c (st.current c ++
             [freshDoc st.now (.vstr s)
               (if author = "" then cfg.defaultAuthor else author) document]),
           history := updCol st.history c (st.history c ++
             [freshDoc st.now (.vstr s)
               (if author = "" then cfg.defaultAuthor else author) document]) }
          : DB).history c).filter (matchesIdVer (.vstr s) 0) =
        [freshDoc st.now (.vstr s)
          (if author = "" then cfg.defaultAuthor else author) document] := by
      show ((updCol st.current c (st.current c ++
        [freshDoc st.now (.vstr s)
          (if author = "" then cfg.defaultAuthor else author) document])) c).filter
          (matchesIdVer (.vstr s) 0) = _
      rw [updCol_same, hempty]
      simp [matchesIdVer, idMatches, freshDoc, Fields.get?, Value.beq]
    obtain ⟨w, hw, hbw, heq⟩ := (getDocFetch_cases _ c (.vstr s) 0 hc _ hfil).2.1 _ rfl
    rw [heq]

/-- Witness for C7 at a concrete state: inserting s1 into the empty database
yields the freshly generated document and a subsequent get returns it. -/
theorem claim_C7_witness :
    insert_document cfg0 emptyDB "sensors" candA "" false false false =
      (.ok (freshDoc 0 (.vstr "s1") "defaultAuthor" candA),
       { emptyDB with
         current := updCol emptyDB.current "sensors" (emptyDB.current "sensors" ++
           [freshDoc 0 (.vstr "s1") "defaultAuthor" candA]),
         history := updCol emptyDB.history "sensors" (emptyDB.history "sensors" ++
           [freshDoc 0 (.vstr "s1") "defaultAuthor" candA]) }) ∧
    (get_document (insert_document cfg0 emptyDB "sensors" candA "" false false
        false).2 "sensors" (.vstr "s1") 0).1 =
      .ok (freshDoc 0 (.vstr "s1") "defaultAuthor" candA) := by
  have h := claim_C7 cfg0 emptyDB "sensors" candA "" "s1" "defaultAuthor"
    (freshDoc 0 (.vstr "s1") "defaultAuthor" candA) rfl rfl (by decide) rfl rfl
    rfl rfl
  exact ⟨h.1, h.2.2.2.2.2.2⟩

/-- Claim C6 (corrected): the NoChange comparison of replace is made against
the prior document as fetched by the cache-aware get — the cached snapshot
when one is fresh, the current store otherwise.  When the candidate content
is Python-equal to that fetched content, the call fails NoChange
(AssertionError) with `force=false`, leaving the current and history stores
exactly as the fetch left them (the fetch itself only touches the cache);
with `force=true` the write proceeds and the version of the fetched document
increments by exactly 1 while a new history entry is appended.  When the
cache holds a stale snapshot the comparison is against that snapshot, not
against the stored current content (see the counterexample). -/
theorem claim_C6_amended (cfg : Cfg) (st st1 : DB) (c s : String)
    (document old : Doc) (author : String) (n : Int) (nd2 : Doc)
    (hid : document.get? "#id" = some (.vstr s))
    (hget : get_document st c (.vstr s) 0 = (.ok old, st1))
    (hver : old.keepMeta.get? "#version" = some (.vint n))
    (hsame : Fields.pyEq document.dropMeta old.dropMeta = true)
    (hnd2 : nd2 = Fields.append (((old.keepMeta.set "#version"
        (.vint (n + 1))).set "#modificationDate"
        (.vstr (tsString st1.now))).set "#author"
        (.vstr (if author = "" then cfg.defaultAuthor else author)))
        document.dropMeta) :
    replace_document cfg st c (.vstr s) document author false =
      (.error (.assertionError "old and new document are equal, aborting"), st1) ∧
    st1.current = st.current ∧ st1.history = st.history ∧
    replace_document cfg st c (.vstr s) document author true =
      (.ok nd2, { st1 with
        current := updCol st1.current c (replaceOne (st1.current c) (.vstr s) nd2),
        history := updCol st1.history c (st1.history c ++ [nd2]) }) ∧
    nd2.get? "#version" = some (.vint (n + 1)) := by
  subst hnd2
  have hbeq : Value.beq (.vstr s) (.vstr s) = true := by simp [Value.beq]
  have hframe : SameStores st1 st := by
    have h2 := stores_get_document st c (.vstr s) 0
    rw [hget] at h2
    exact h2
  have hcommon : ∀ force : Bool,
      replace_document cfg st c (.vstr s) document author force =
        (if Fields.pyEq document.dropMeta old.dropMeta && !force then
          ((Except.error (Err.assertionError
            "old and new document are equal, aborting") : Except Err Doc), st1)
        else
          match (validate_document cfg (Fields.append (((old.keepMeta.set
              "#version" (.vint (n + 1))).set "#modificationDate"
              (.vstr (tsString st1.now))).set "#author"
              (.vstr (if author = "" then cfg.defaultAuthor else author)))
              document.dropMeta) c (!force)).outcome with
          | .error e => (.error e, st1)
          | .ok _ =>
              (.ok (Fields.append (((old.keepMeta.set "#version"
                 (.vint (n + 1))).set "#modificationDate"
                 (.vstr (tsString st1.now))).set "#author"
                 (.vstr (if author = "" then cfg.defaultAuthor else author)))
                 document.dropMeta),
               { st1 with
                 current := updCol st1.current c (replaceOne (st1.current c)
                   (.vstr s) (Fields.append (((old.keepMeta.set "#version"
                     (.vint (n + 1))).set "#modificationDate"
                     (.vstr (tsString st1.now))).set "#author"
                     (.vstr (if author = "" then cfg.defaultAuthor else author)))
                     document.dropMeta)),
                 history := updCol st1.history c (st1.history c ++
                   [Fields.append (((old.keepMeta.set "#version"
                     (.vint (n + 1))).set "#modificationDate"
                     (.vstr (tsString st1.now))).set "#author"
                     (.vstr (if author = "" then cfg.defaultAuthor else author)))
                     document.dropMeta]) })) := by
    intro force
    have h1 : replace_document cfg st c (.vstr s) document author force =
        (if Value.beq (.vstr s) (.vstr s) = true then
          match get_document st c (.vstr s) 0 with
          | (.error e, stx) => ((Except.error e : Except Err Doc), stx)
          | (.ok oldDoc, stx) =>
              match oldDoc.keepMeta.get? "#version" with
              | some (.vint m) =>
                  if Fields.pyEq document.dropMeta oldDoc.dropMeta && !force then
                    (.error (.assertionError
                      "old and new document are equal, aborting"), stx)
                  else
                    match (validate_document cfg (Fields.append
                        (((oldDoc.keepMeta.set "#version" (.vint (m + 1))).set
                        "#modificationDate" (.vstr (tsString stx.now))).set
                        "#author" (.vstr (if author = "" then cfg.defaultAuthor
                          else author))) document.dropMeta) c (!force)).outcome with
                    | .error e => (.error e, stx)
                    | .ok _ =>
                        (.ok (Fields.append (((oldDoc.keepMeta.set "#version"
                           (.vint (m + 1))).set "#modificationDate"
                           (.vstr (tsString stx.now))).set "#author"
                           (.vstr (if author = "" then cfg.defaultAuthor
                             else author))) document.dropMeta),
                         { stx with
                           current := updCol stx.current c (replaceOne
                             (stx.current c) (.vstr s) (Fields.append
                             (((oldDoc.keepMeta.set "#version" (.vint (m + 1))).set
                             "#modificationDate" (.vstr (tsString stx.now))).set
                             "#author" (.vstr (if author = "" then
                               cfg.defaultAuthor else author)))
                             document.dropMeta)),
                           history := updCol stx.history c (stx.history c ++
                             [Fields.append (((oldDoc.keepMeta.set "#version"
                             (.vint (m + 1))).set "#modificationDate"
                             (.vstr (tsString stx.now))).set "#author"
                             (.vstr (if author = "" then cfg.defaultAuthor
                               else author))) document.dropMeta]) })
              | some v2 => (.error (.typeError "#version"), stx)
              | none => (.error (.keyError "#version"), stx)
        else (.error (.valueError
          "Document #id does not match with parameter id"), st)) := by
      unfold replace_document
      rw [hid]
    rw [h1, if_pos hbeq, hget]
    show (match old.keepMeta.get? "#version" with
      | some (.vint m) =>
          if Fields.pyEq document.dropMeta old.dropMeta && !force then
            ((Except.error (Err.assertionError
              "old and new document are equal, aborting") : Except Err Doc), st1)
          else
            match (validate_document cfg (Fields.append
                (((old.keepMeta.set "#version" (.vint (m + 1))).set
                "#modificationDate" (.vstr (tsString st1.now))).set
                "#author" (.vstr (if author = "" then cfg.defaultAuthor
                  else author))) document.dropMeta) c (!force)).outcome with
            | .error e => (.error e, st1)
            | .ok _ =>
                (.ok (Fields.append (((old.keepMeta.set "#version"
                   (.vint (m + 1))).set "#modificationDate"
                   (.vstr (tsString st1.now))).set "#author"
                   (.vstr (if author = "" then cfg.defaultAuthor
                     else author))) document.dropMeta),
                 { st1 with
                   current := updCol st1.current c (replaceOne
                     (st1.current c) (.vstr s) (Fields.append
                     (((old.keepMeta.set "#version" (.vint (m + 1))).set
                     "#modificationDate" (.vstr (tsString st1.now))).set
                     "#author" (.vstr (if author = "" then
                       cfg.defaultAuthor else author)))
                     document.dropMeta)),
                   history := updCol st1.history c (st1.history c ++
                     [Fields.append (((old.keepMeta.set "#version"
                     (.vint (m + 1))).set "#modificationDate"
                     (.vstr (tsString st1.now))).set "#author"
                     (.vstr (if author = "" then cfg.defaultAuthor
                       else author))) document.dropMeta]) })
      | some v2 => ((Except.error (Err.typeError "#version") : Except Err Doc), st1)
      | none => (.error (.keyError "#version"), st1)) = _
    rw [hver]
  refine ⟨?_, hframe.1, hframe.2.1, ?_, ?_⟩
  · rw [hcommon false]
    rw [if_pos (by simp [hsame])]
  · rw [hcommon true]
    rw [if_neg (by simp)]
    obtain ⟨b, hb⟩ := validate_document_noexc cfg (Fields.append
      (((old.keepMeta.set "#version" (.vint (n + 1))).set "#modificationDate"
      (.vstr (tsString st1.now))).set "#author"
      (.vstr (if author = "" then cfg.defaultAuthor else author)))
      document.dropMeta) c
    show (match (validate_document cfg (Fields.append (((old.keepMeta.set
        "#version" (.vint (n + 1))).set "#modificationDate"
        (.vstr (tsString st1.now))).set "#author"
        (.vstr (if author = "" then cfg.defaultAuthor else author)))
        document.dropMeta) c false).outcome with
      | .error e => ((Except.error e : Except Err Doc), st1)
      | .ok _ =>
          (.ok (Fields.append (((old.keepMeta.set "#version"
             (.vint (n + 1))).set "#modificationDate"
             (.vstr (tsString st1.now))).set "#author"
             (.vstr (if author = "" then cfg.defaultAuthor else author)))
             document.dropMeta),
           { st1 with
             current := updCol st1.current c (replaceOne (st1.current c)
               (.vstr s) (Fields.append (((old.keepMeta.set "#version"
                 (.vint (n + 1))).set "#modificationDate"
                 (.vstr (tsString st1.now))).set "#author"
                 (.vstr (if author = "" then cfg.defaultAuthor else author)))
                 document.dropMeta)),
             history := updCol st1.history c (st1.history c ++
               [Fields.append (((old.keepMeta.set "#version"
                 (.vint (n + 1))).set "#modificationDate"
                 (.vstr (tsString st1.now))).set "#author"
                 (.vstr (if author = "" then cfg.defaultAuthor else author)))
                 document.dropMeta]) })) = _
    rw [hb]
  · rw [get?_append_left _ _ _ _ ?_]
    rw [get?_set_other _ _ _ _ (by decide), get?_set_other _ _ _ _ (by decide),
      get?_set_self]

/-- Witness for C6 (amended) at a concrete state: replacing s1 on `c5DB` with
content identical to the fetched prior content fails NoChange, leaving the
state exactly as the fetch left it (`c6W1`: only the cache gained the fetched
snapshot). -/
theorem claim_C6_witness :
    replace_document cfg0 c5DB "sensors" (.vstr "s1") candA "" false =
      (.error (.assertionError "old and new document are equal, aborting"), c6W1) :=
  (claim_C6_amended cfg0 c5DB c6W1 "sensors" "s1" candA dV1A "" 1
    (Fields.append (((dV1A.keepMeta.set "#version" (.vint 2)).set
      "#modificationDate" (.vstr (tsString c6W1.now))).set "#author"
      (.vstr "defaultAuthor")) candA.dropMeta)
    rfl rfl rfl rfl (by rfl)).1

/- ------------------------------------------------------------------ -/
/- Scanner error accumulation -/
/- ------------------------------------------------------------------ -/

theorem check_link_accum (st : DB) (c : String) (pid : Value) (tc : String)
    (td : Value) (errs : List String) (res : List String) (st1 : DB)
    (h : check_link st c pid tc td errs = (.ok res, st1)) :
    ∃ t, res = errs ++ t := by
  cases hg : get_document st tc td 0 with
  | mk r stx =>
      cases r with
      | ok d =>
          have hun : check_link st c pid tc td errs =
              (if d.isEmpty = true then
                ((Except.error (Err.valueError "Never null!") :
                  Except Err (List String)), stx)
              else (.ok errs, stx)) := by
            unfold check_link
            rw [hg]
          rw [hun] at h
          by_cases hne : d.isEmpty = true
          · rw [if_pos hne] at h
            injection h with h1 h2
            exact absurd h1 (by simp)
          · rw [if_neg hne] at h
            injection h with h1 h2
            injection h1 with h1
            exact ⟨[], by rw [← h1]; simp⟩
      | error e =>
          cases e with
          | lookupError m =>
              have hun : check_link st c pid tc td errs =
                  (.ok (errs ++ [brokenLink c pid tc td]), stx) := by
                unfold check_link
                rw [hg]
              rw [hun] at h
              injection h with h1 h2
              injection h1 with h1
              exact ⟨[brokenLink c pid tc td], h1.symm⟩
          | valueError m =>
              have hun : check_link st c pid tc td errs =
                  ((Except.error (Err.valueError m) :
                    Except Err (List String)), stx) := by
                unfold check_link
                rw [hg]
              rw [hun] at h
              injection h with h1 h2
              exact absurd h1 (by simp)
          | nameError m =>
              have hun : check_link st c pid tc td errs =
                  ((Except.error (Err.nameError m) :
                    Except Err (List String)), stx) := by
                unfold check_link
                rw [hg]
              rw [hun] at h
              injection h with h1 h2
              exact absurd h1 (by simp)
          | assertionError m =>
              have hun : check_link st c pid tc td errs =
                  ((Except.error (Err.assertionError m) :
                    Except Err (List String)), stx) := by
                unfold check_link
                rw [hg]
              rw [hun] at h
              injection h with h1 h2
              exact absurd h1 (by simp)
          | keyError m =>
              have hun : check_link st c pid tc td errs =
                  ((Except.error (Err.keyError m) :
                    Except Err (List String)), stx) := by
                unfold check_link
                rw [hg]
              rw [hun] at h
              injection h with h1 h2
              exact absurd h1 (by simp)
          | typeError m =>
              have hun : check_link st c pid tc td errs =
                  ((Except.error (Err.typeError m) :
                    Except Err (List String)), stx) := by
                unfold check_link
                rw [hg]
              rw [hun] at h
              injection h with h1 h2
              exact absurd h1 (by simp)

theorem check_links_accum (st : DB) (c : String) (pid : Value) (tc : String)
    (xs : VList) (errs : List String) (res : List String) (st2 : DB)
    (h : check_links st c pid tc xs errs = (.ok res, st2)) :
    ∃ t, res = errs ++ t := by
  cases xs with
  | nil =>
      have hun : check_links st c pid tc .nil errs =
          ((Except.ok errs : Except Err (List String)), st) := by
        conv_lhs => unfold check_links
      rw [hun] at h
      injection h with h1 h2
      injection h1 with h1
      exact ⟨[], by rw [← h1]; simp⟩
  | cons v vs =>
      cases hcl : check_link st c pid tc v errs with
      | mk r st1 =>
          cases r with
          | ok e1 =>
              have hun : check_links st c pid tc (.cons v vs) errs =
                  check_links st1 c pid tc vs e1 := by
                conv_lhs => unfold check_links
                show (match check_link st c pid tc v errs with
                  | (.ok errs1, stx) => check_links stx c pid tc vs errs1
                  | (.error e, stx) =>
                      ((Except.error e : Except Err (List String)), stx)) = _
                rw [hcl]
              rw [hun] at h
              obtain ⟨t1, ht1⟩ := check_link_accum st c pid tc v errs e1 st1 hcl
              obtain ⟨t2, ht2⟩ := check_links_accum st1 c pid tc vs e1 res st2 h
              exact ⟨t1 ++ t2, by rw [ht2, ht1]; simp⟩
          | error e =>
              have hun : check_links st c pid tc (.cons v vs) errs =
                  ((Except.error e : Except Err (List String)), st1) := by
                conv_lhs => unfold check_links
                show (match check_link st c pid tc v errs with
                  | (.ok errs1, stx) => check_links stx c pid tc vs errs1
                  | (.error e2, stx) =>
                      ((Except.error e2 : Except Err (List String)), stx)) = _
                rw [hcl]
              rw [hun] at h
              injection h with h1 h2
              exact absurd h1 (by simp)

mutual

theorem check_dict_accum (st : DB) (c : String) (pid : Value) (doc : Fields)
    (errs : List String) (res : List String) (st2 : DB)
    (h : check_dict st c pid doc errs = (.ok res, st2)) :
    ∃ t, res = errs ++ t := by
  cases doc with
  | nil =>
      have hun : check_dict st c pid .nil errs =
          ((Except.ok errs : Except Err (List String)), st) := by
        conv_lhs => unfold check_dict
      rw [hun] at h
      injection h with h1 h2
      injection h1 with h1
      exact ⟨[], by rw [← h1]; simp⟩
  | cons key value rest =>
      by_cases hk : startsWithCh (Char.ofNat 64) key = true
      · cases value with
        | vstr s2 =>
            cases hcl : check_link st c pid (dropFirst key) (.vstr s2) errs with
            | mk r st1 =>
                cases r with
                | ok e1 =>
                    have hun : check_dict st c pid (.cons key (.vstr s2) rest) errs =
                        check_dict st1 c pid rest e1 := by
                      conv_lhs => unfold check_dict
                      rw [if_pos hk]
                      show (match check_link st c pid (dropFirst key) (.vstr s2)
                          errs with
                        | (.ok errs1, stx) => check_dict stx c pid rest errs1
                        | (.error e, stx) =>
                            ((Except.error e : Except Err (List String)), stx)) = _
                      rw [hcl]
                    rw [hun] at h
                    obtain ⟨t1, ht1⟩ := check_link_accum st c pid (dropFirst key)
                      (.vstr s2) errs e1 st1 hcl
                    obtain ⟨t2, ht2⟩ := check_dict_accum st1 c pid rest e1 res st2 h
                    exact ⟨t1 ++ t2, by rw [ht2, ht1]; simp⟩
                | error e =>
                    have hun : check_dict st c pid (.cons key (.vstr s2) rest) errs =
                        ((Except.error e : Except Err (List String)), st1) := by
                      conv_lhs => unfold check_dict
                      rw [if_pos hk]
                      show (match check_link st c pid (dropFirst key) (.vstr s2)
                          errs with
                        | (.ok errs1, stx) => check_dict stx c pid rest errs1
                        | (.error e2, stx) =>
                            ((Except.error e2 : Except Err (List String)), stx)) = _
                      rw [hcl]
                    rw [hun] at h
                    injection h with h1 h2
                    exact absurd h1 (by simp)
        | varr xs =>
            cases hcl : check_links st c pid (dropFirst key) xs errs with
            | mk r st1 =>
                cases r with
                | ok e1 =>
                    have hun : check_dict st c pid (.cons key (.varr xs) rest) errs =
                        check_dict st1 c pid rest e1 := by
                      conv_lhs => unfold check_dict
                      rw [if_pos hk]
                      show (match check_links st c pid (dropFirst key) xs errs with
                        | (.ok errs1, stx) => check_dict stx c pid rest errs1
                        | (.error e, stx) =>
                            ((Except.error e : Except Err (List String)), stx)) = _
                      rw [hcl]
                    rw [hun] at h
                    obtain ⟨t1, ht1⟩ := check_links_accum st c pid (dropFirst key)
                      xs errs e1 st1 hcl
                    obtain ⟨t2, ht2⟩ := check_dict_accum st1 c pid rest e1 res st2 h
                    exact ⟨t1 ++ t2, by rw [ht2, ht1]; simp⟩
                | error e =>
                    have hun : check_dict st c pid (.cons key (.varr xs) rest) errs =
                        ((Except.error e : Except Err (List String)), st1) := by
                      conv_lhs => unfold check_dict
                      rw [if_pos hk]
                      show (match check_links st c pid (dropFirst key) xs errs with
                        | (.ok errs1, stx) => check_dict stx c pid rest errs1
                        | (.error e2, stx) =>
                            ((Except.error e2 : Except Err (List String)), stx)) = _
                      rw [hcl]
                    rw [hun] at h
                    injection h with h1 h2
                    exact absurd h1 (by simp)
        | vint n =>
            have hun : check_dict st c pid (.cons key (.vint n) rest) errs =
                ((Except.error (Err.valueError ("Wrong type in " ++ vShow pid
                  ++ " " ++ key)) : Except Err (List String)), st) := by
              conv_lhs => unfold check_dict
              rw [if_pos hk]
            rw [hun] at h
            injection h with h1 h2
            exact absurd h1 (by simp)
        | vbool b =>
            have hun : check_dict st c pid (.cons key (.vbool b) rest) errs =
                ((Except.error (Err.valueError ("Wrong type in " ++ vShow pid
                  ++ " " ++ key)) : Except Err (List String)), st) := by
              conv_lhs => unfold check_dict
              rw [if_pos hk]
            rw [hun] at h
            injection h with h1 h2
            exact absurd h1 (by simp)
        | vnull =>
            have hun : check_dict st c pid (.cons key .vnull rest) errs =
                ((Except.error (Err.valueError ("Wrong type in " ++ vShow pid
                  ++ " " ++ key)) : Except Err (List String)), st) := by
              conv_lhs => unfold check_dict
              rw [if_pos hk]
            rw [hun] at h
            injection h with h1 h2
            exact absurd h1 (by simp)
        | vobj fs =>
            have hun : check_dict st c pid (.cons key (.vobj fs) rest) errs =
                ((Except.error (Err.valueError ("Wrong type in " ++ vShow pid
                  ++ " " ++ key)) : Except Err (List String)), st) := by
              conv_lhs => unfold check_dict
              rw [if_pos hk]
            rw [hun] at h
            injection h with h1 h2
            exact absurd h1 (by simp)
      · cases value with
        | vobj sub =>
            cases hcd : check_dict st c pid sub errs with
            | mk r st1 =>
                cases r with
                | ok e1 =>
                    have hun : check_dict st c pid (.cons key (.vobj sub) rest) errs =
                        check_dict st1 c pid rest e1 := by
                      conv_lhs => unfold check_dict
                      rw [if_neg hk]
                      show (match check_dict st c pid sub errs with
                        | (.ok errs1, stx) => check_dict stx c pid rest errs1
                        | (.error e, stx) =>
                            ((Except.error e : Except Err (List String)), stx)) = _
                      rw [hcd]
                    rw [hun] at h
                    obtain ⟨t1, ht1⟩ := check_dict_accum st c pid sub errs e1 st1 hcd
                    obtain ⟨t2, ht2⟩ := check_dict_accum st1 c pid rest e1 res st2 h
                    exact ⟨t1 ++ t2, by rw [ht2, ht1]; simp⟩
                | error e =>
                    have hun : check_dict st c pid (.cons key (.vobj sub) rest) errs =
                        ((Except.error e : Except Err (List String)), st1) := by
                      conv_lhs => unfold check_dict
                      rw [if_neg hk]
                      show (match check_dict st c pid sub errs with
                        | (.ok errs1, stx) => check_dict stx c pid rest errs1
                        | (.error e2, stx) =>
                            ((Except.error e2 : Except Err (List String)), stx)) = _
                      rw [hcd]
                    rw [hun] at h
                    injection h with h1 h2
                    exact absurd h1 (by simp)
        | varr xs =>
            cases hcs : check_list st c pid xs errs with
            | mk r st1 =>
                cases r with
                | ok e1 =>
                    have hun : check_dict st c pid (.cons key (.varr xs) rest) errs =
                        check_dict st1 c pid rest e1 := by
                      conv_lhs => unfold check_dict
                      rw [if_neg hk]
                      show (match check_list st c pid xs errs with
                        | (.ok errs1, stx) => check_dict stx c pid rest errs1
                        | (.error e, stx) =>
                            ((Except.error e : Except Err (List String)), stx)) = _
                      rw [hcs]
                    rw [hun] at h
                    obtain ⟨t1, ht1⟩ := check_list_accum st c pid xs errs e1 st1 hcs
                    obtain ⟨t2, ht2⟩ := check_dict_accum st1 c pid rest e1 res st2 h
                    exact ⟨t1 ++ t2, by rw [ht2, ht1]; simp⟩
                | error e =>
                    have hun : check_dict st c pid (.cons key (.varr xs) rest) errs =
                        ((Except.error e : Except Err (List String)), st1) := by
                      conv_lhs => unfold check_dict
                      rw [if_neg hk]
                      show (match check_list st c pid xs errs with
                        | (.ok errs1, stx) => check_dict stx c pid rest errs1
                        | (.error e2, stx) =>
                            ((Except.error e2 : Except Err (List String)), stx)) = _
                      rw [hcs]
                    rw [hun] at h
                    injection h with h1 h2
                    exact absurd h1 (by simp)
        | vstr s2 =>
            have hun : check_dict st c pid (.cons key (.vstr s2) rest) errs =
                check_dict st c pid rest errs := by
              conv_lhs => unfold check_dict
              rw [if_neg hk]
            rw [hun] at h
            exact check_dict_accum st c pid rest errs res st2 h
        | vint n =>
            have hun : check_dict st c pid (.cons key (.vint n) rest) errs =
                check_dict st c pid rest errs := by
              conv_lhs => unfold check_dict
              rw [if_neg hk]
            rw [hun] at h
            exact check_dict_accum st c pid rest errs res st2 h
        | vbool b =>
            have hun : check_dict st c pid (.cons key (.vbool b) rest) errs =
                check_dict st c pid rest errs := by
              conv_lhs => unfold check_dict
              rw [if_neg hk]
            rw [hun] at h
            exact check_dict_accum st c pid rest errs res st2 h
        | vnull =>
            have hun : check_dict st c pid (.cons key .vnull rest) errs =
                check_dict st c pid rest errs := by
              conv_lhs => unfold check_dict
              rw [if_neg hk]
            rw [hun] at h
            exact check_dict_accum st c pid rest errs res st2 h

theorem check_list_accum (st : DB) (c : String) (pid : Value) (xs : VList)
    (errs : List String) (res : List String) (st2 : DB)
    (h : check_list st c pid xs errs = (.ok res, st2)) :
    ∃ t, res = errs ++ t := by
  cases xs with
  | nil =>
      have hun : check_list st c pid .nil errs =
          ((Except.ok errs : Except Err (List String)), st) := by
        conv_lhs => unfold check_list
      rw [hun] at h
      injection h with h1 h2
      injection h1 with h1
      exact ⟨[], by rw [← h1]; simp⟩
  | cons v vs =>
      cases v with
      | vobj sub =>
          cases hcd : check_dict st c pid sub errs with
          | mk r st1 =>
              cases r with
              | ok e1 =>
                  have hun : check_list st c pid (.cons (.vobj sub) vs) errs =
                      check_list st1 c pid vs e1 := by
                    conv_lhs => unfold check_list
                    show (match check_dict st c pid sub errs with
                      | (.ok errs1, stx) => check_list stx c pid vs errs1
                      | (.error e, stx) =>
                          ((Except.error e : Except Err (List String)), stx)) = _
                    rw [hcd]
                  rw [hun] at h
                  obtain ⟨t1, ht1⟩ := check_dict_accum st c pid sub errs e1 st1 hcd
                  obtain ⟨t2, ht2⟩ := check_list_accum st1 c pid vs e1 res st2 h
                  exact ⟨t1 ++ t2, by rw [ht2, ht1]; simp⟩
              | error e =>
                  have hun : check_list st c pid (.cons (.vobj sub) vs) errs =
                      ((Except.error e : Except Err (List String)), st1) := by
                    conv_lhs => unfold check_list
                    show (match check_dict st c pid sub errs with
                      | (.ok errs1, stx) => check_list stx c pid vs errs1
                      | (.error e2, stx) =>
                          ((Except.error e2 : Except Err (List String)), stx)) = _
                    rw [hcd]
                  rw [hun] at h
                  injection h with h1 h2
                  exact absurd h1 (by simp)
      | vstr s2 =>
          have hun : check_list st c pid (.cons (.vstr s2) vs) errs =
              check_list st c pid vs errs := by
            conv_lhs => unfold check_list
          rw [hun] at h
          exact check_list_accum st c pid vs errs res st2 h
      | vint n =>
          have hun : check_list st c pid (.cons (.vint n) vs) errs =
              check_list st c pid vs errs := by
            conv_lhs => unfold check_list
          rw [hun] at h
          exact check_list_accum st c pid vs errs res st2 h
      | vbool b =>
          have hun : check_list st c pid (.cons (.vbool b) vs) errs =
              check_list st c pid vs errs := by
            conv_lhs => unfold check_list
          rw [hun] at h
          exact check_list_accum st c pid vs errs res st2 h
      | vnull =>
          have hun : check_list st c pid (.cons .vnull vs) errs =
              check_list st c pid vs errs := by
            conv_lhs => unfold check_list
          rw [hun] at h
          exact check_list_accum st c pid vs errs res st2 h
      | varr ys =>
          have hun : check_list st c pid (.cons (.varr ys) vs) errs =
              check_list st c pid vs errs := by
            conv_lhs => unfold check_list
          rw [hun] at h
          exact check_list_accum st c pid vs errs res st2 h

end

/-- Claim C3 (confirmed): a failed link lookup (LookupError from the
cache-aware get) appends exactly one diagnostic of the form
collection:sourceId broken link targetCollection:targetId (ids quoted as in
the source f-string) and the traversal continues with an ok result instead of
raising; and every successful scan only ever appends to the error list it was
given — the accumulated result extends the incoming diagnostics, so one pass
reports the complete error set. -/
theorem claim_C3 :
    (∀ st st1 c pid tc td errs m,
      get_document st tc td 0 = (.error (.lookupError m), st1) →
      check_link st c pid tc td errs =
        (.ok (errs ++ [brokenLink c pid tc td]), st1)) ∧
    (∀ st c pid doc errs res st2,
      check_dict st c pid doc errs = (.ok res, st2) → ∃ t, res = errs ++ t) := by
  constructor
  · intro st st1 c pid tc td errs m h
    unfold check_link
    rw [h]
  · intro st c pid doc errs res st2 h
    exact check_dict_accum st c pid doc errs res st2 h

/-- Witness for C3 at a concrete state: on the empty database a broken link
appends exactly its diagnostic, and a scan of a document with two broken
links (one nested) returns the incoming list extended by both diagnostics. -/
theorem claim_C3_witness :
    check_link emptyDB "sensors" (.vstr "s1") "people" (.vstr "p1") ["pre"] =
      (.ok (["pre"] ++ [brokenLink "sensors" (.vstr "s1") "people" (.vstr "p1")]),
       emptyDB) ∧
    (∃ t, ["pre", brokenLink "sensors" (.vstr "s1") "people" (.vstr "p1"),
        brokenLink "sensors" (.vstr "s1") "people" (.vstr "p2")] =
      ["pre"] ++ t) := by
  constructor
  · exact claim_C3.1 emptyDB emptyDB "sensors" (.vstr "s1") "people" (.vstr "p1")
      ["pre"] (docNotFoundMsg "people" (.vstr "p1")) rfl
  · exact claim_C3.2 emptyDB "sensors" (.vstr "s1") c3Doc ["pre"]
      ["pre", brokenLink "sensors" (.vstr "s1") "people" (.vstr "p1"),
        brokenLink "sensors" (.vstr "s1") "people" (.vstr "p2")] emptyDB rfl

end MMapi
